import Mathlib

/-!
# Shallow embedding of the weirdstats activity-processing core

This file embeds, in Lean 4, the parts of the weirdstats repository that its
specification talks about: the declarative rule engine (`internal/rules`),
the GPS stop/crossing detection (`internal/gps`), the job-claiming logic of
the persistent store (`internal/storage`), and the processing pipeline
(`internal/processor`, `internal/ingest`).

Modelling conventions:
* Go `float64` values (distances, speeds, coordinates, rule values) are
  modelled as `ℚ`; the code only compares and adds such values, never
  relying on IEEE rounding, and no NaN can reach the compared positions in
  the claims below.
* Go `time.Time` is modelled as `Int` nanoseconds since the Unix epoch
  (`time.Duration` is likewise `Int` nanoseconds); `Time.Unix()` is floor
  division by 10^9.  The zero `time.Time` of Go is modelled as the value 0
  where the code checks `IsZero`.
* Fallible Go functions returning `(T, error)` become `Except String T`;
  the Go zero values accompanying a non-nil error carry no information and
  are dropped.
* `encoding/json` decoding, the SQLite driver and the HTTP clients are
  external to the repository: their outcomes enter the model as data
  (already-decoded values, store state, environment functions), while every
  line of repository code operating on those outcomes is translated.
-/

namespace Weirdstats

/-- Propositional equality on `Except` is decidable when it is on both the
error and the value type; used to evaluate the embedded functions at
concrete inputs. -/
instance {ε α : Type} [DecidableEq ε] [DecidableEq α] :
    DecidableEq (Except ε α) := fun x y =>
  match x, y with
  | .ok a, .ok b =>
    if h : a = b then .isTrue (by rw [h]) else .isFalse (by simp [h])
  | .error e, .error f =>
    if h : e = f then .isTrue (by rw [h]) else .isFalse (by simp [h])
  | .ok _, .error _ => .isFalse (by simp)
  | .error _, .ok _ => .isFalse (by simp)

namespace Rules

/-! ## internal/rules: types (types.go)

Go declares `type ValueType string` with constants `"number"` / `"enum"`;
we keep the string representation. -/

def valueNumber : String := "number"

def valueEnum : String := "enum"

/-- `rules.Value` — a resolved metric value. -/
structure Value where
  type : String
  num : ℚ := 0
  str : String := ""
deriving DecidableEq, Repr

/-- `rules.ActivitySource`. -/
structure ActivitySource where
  id : Int := 0
  type : String := ""
  name : String := ""
  startUnix : Int := 0
  distanceM : ℚ := 0
  movingTimeS : Int := 0
deriving DecidableEq, Repr

/-- `rules.StatsSource`. -/
structure StatsSource where
  stopCount : Int := 0
  stopTotalSeconds : Int := 0
  trafficLightStopCount : Int := 0
deriving DecidableEq, Repr

/-- `rules.Context`. -/
structure Context where
  activity : ActivitySource := {}
  stats : StatsSource := {}
deriving DecidableEq, Repr

/-- A Go `any` value as it can occur in `Condition.Values` after JSON
decoding (the decoder uses `UseNumber`, so JSON numbers arrive as
`json.Number`).  `num` covers `float64`/`float32`/`int`/`int64`/
`json.Number` (all of which `toFloat` converts); `str` carries the string
together with the outcome that `strconv.ParseFloat(strings.TrimSpace s)`
would produce on it (that parser is external to the repository, so its
outcome is data); `stringer` is a `fmt.Stringer`; `other` is any other Go
value. -/
inductive AnyValue where
  | num (q : ℚ)
  | str (s : String) (parsedNum : Option ℚ)
  | stringer (s : String)
  | other
deriving DecidableEq, Repr

/-- `rules.Condition`. -/
structure Condition where
  metric : String
  op : String
  values : List AnyValue
deriving DecidableEq, Repr

/-- `rules.Override` (`json:"override"`). -/
structure Override where
  oneIn : Int := 0
deriving DecidableEq, Repr

/-- `rules.Allow` (`json:"allow"`). -/
structure Allow where
  oneIn : Int := 0
deriving DecidableEq, Repr

/-- `rules.Action`. -/
structure Action where
  type : String := ""
  override : Option Override := none
  allow : Option Allow := none
deriving DecidableEq, Repr

/-- `rules.Rule`.  The Go field `Match` is named `matchMode` here because
`match` is a Lean keyword. -/
structure Rule where
  matchMode : String := ""
  conditions : List Condition := []
  action : Action := {}
deriving DecidableEq, Repr

/-- `rules.Metric` — a registry entry.  The Go field `Example` is named
`exampleStr` because `example` is a Lean keyword. -/
structure Metric where
  id : String := ""
  label : String := ""
  description : String := ""
  unit : String := ""
  exampleStr : String := ""
  type : String
  enum : List String := []
  resolve : Context → Except String Value

/-- `rules.Registry` — Go's `map[string]Metric` as a lookup function. -/
def Registry := String → Option Metric

/-- `rules.OperatorSpec`. -/
structure OperatorSpec where
  id : String
  label : String
  valueCount : Int
  valueMode : String
deriving DecidableEq, Repr

/-! ## internal/rules: registry.go -/

/-- Hour of day of a unix timestamp.  Go's `time.Unix(n,0).Hour()` uses the
process-local time zone; we model the UTC hour. -/
def hourOfUnix (n : Int) : Int :=
  (Int.fdiv n 3600) % 24

/-- `rules.DefaultRegistry` (registry.go lines 5-102). -/
def defaultRegistry : Registry := fun key =>
  if key = "distance_m" then
    some { id := "distance_m", label := "Distance",
           description := "Total distance in meters", unit := "m",
           exampleStr := "20000", type := valueNumber,
           resolve := fun ctx =>
             .ok { type := valueNumber, num := ctx.activity.distanceM } }
  else if key = "moving_time_s" then
    some { id := "moving_time_s", label := "Moving time",
           description := "Moving time in seconds", unit := "s",
           exampleStr := "3600", type := valueNumber,
           resolve := fun ctx =>
             .ok { type := valueNumber, num := (ctx.activity.movingTimeS : ℚ) } }
  else if key = "activity_type" then
    some { id := "activity_type", label := "Activity type",
           description := "Strava activity type", unit := "",
           exampleStr := "Ride", type := valueEnum,
           enum := ["Ride", "Run", "Walk", "Hike", "Swim", "Workout",
                    "VirtualRide", "EBikeRide", "GravelRide", "TrailRun",
                    "Rowing", "NordicSki"],
           resolve := fun ctx =>
             .ok { type := valueEnum, str := ctx.activity.type } }
  else if key = "start_hour" then
    some { id := "start_hour", label := "Start hour",
           description := "Hour of day activity started (0-23)", unit := "h",
           exampleStr := "22", type := valueNumber,
           resolve := fun ctx =>
             if ctx.activity.startUnix = 0 then
               .ok { type := valueNumber, num := 0 }
             else
               .ok { type := valueNumber, num := (hourOfUnix ctx.activity.startUnix : ℚ) } }
  else if key = "stop_count" then
    some { id := "stop_count", label := "Stop count",
           description := "Number of detected stops", unit := "",
           exampleStr := "5", type := valueNumber,
           resolve := fun ctx =>
             .ok { type := valueNumber, num := (ctx.stats.stopCount : ℚ) } }
  else if key = "stop_total_seconds" then
    some { id := "stop_total_seconds", label := "Stop total time",
           description := "Total stop time in seconds", unit := "s",
           exampleStr := "600", type := valueNumber,
           resolve := fun ctx =>
             .ok { type := valueNumber, num := (ctx.stats.stopTotalSeconds : ℚ) } }
  else if key = "traffic_light_stop_count" then
    some { id := "traffic_light_stop_count", label := "Traffic light stops",
           description := "Stops near traffic lights", unit := "",
           exampleStr := "3", type := valueNumber,
           resolve := fun ctx =>
             .ok { type := valueNumber, num := (ctx.stats.trafficLightStopCount : ℚ) } }
  else none

/-- `rules.DefaultOperators` (registry.go lines 104-122); indexing a Go map
with a missing key yields the empty slice. -/
def defaultOperators : String → List OperatorSpec := fun vt =>
  if vt = valueNumber then
    [ { id := "eq", label := "=", valueCount := 1, valueMode := "single" },
      { id := "neq", label := "!=", valueCount := 1, valueMode := "single" },
      { id := "lt", label := "<", valueCount := 1, valueMode := "single" },
      { id := "lte", label := "<=", valueCount := 1, valueMode := "single" },
      { id := "gt", label := ">", valueCount := 1, valueMode := "single" },
      { id := "gte", label := ">=", valueCount := 1, valueMode := "single" },
      { id := "between", label := "between", valueCount := 2, valueMode := "range" } ]
  else if vt = valueEnum then
    [ { id := "eq", label := "is", valueCount := 1, valueMode := "single" },
      { id := "neq", label := "is not", valueCount := 1, valueMode := "single" },
      { id := "in", label := "in", valueCount := -1, valueMode := "list" },
      { id := "not_in", label := "not in", valueCount := -1, valueMode := "list" } ]
  else []

/-! ## internal/rules: rules.go -/

/-- The normalization tail of `rules.ParseRuleJSON` (rules.go lines 28-33):
after a successful JSON decode, an absent `match` defaults to `"all"` and an
absent action type to `"hide"`.  The JSON decode itself is external
(`encoding/json`); its outcome enters the model as an already-decoded
`Rule`. -/
def normalizeParsedRule (r : Rule) : Rule :=
  let r := if r.matchMode = "" then { r with matchMode := "all" } else r
  if r.action.type = "" then { r with action := { r.action with type := "hide" } } else r

/-- `rules.operatorSpec` (rules.go lines 144-152). -/
def operatorSpecFind (ops : String → List OperatorSpec) (valueType : String)
    (op : String) : Option OperatorSpec :=
  (ops valueType).find? (fun candidate => candidate.id == op)

/-- `rules.toFloat` (rules.go lines 232-257). -/
def toFloat : AnyValue → Option ℚ
  | .num q => some q
  | .str _ parsedNum => parsedNum
  | .stringer _ => none
  | .other => none

/-- `rules.toString` (rules.go lines 259-268). -/
def toStringVal : AnyValue → Option String
  | .str s _ => some s
  | .stringer s => some s
  | .num _ => none
  | .other => none

/-- `rules.validateValues` (rules.go lines 154-187); Go's early returns
become nested if-else. -/
def validateValues (valueType : String) (operator : OperatorSpec)
    (values : List AnyValue) : Except String Unit :=
  let count : Int := values.length
  if operator.valueCount = 1 ∧ count ≠ 1 then
    .error ("invalid rule: operator " ++ operator.id ++ " expects one value")
  else if operator.valueCount = 2 ∧ count ≠ 2 then
    .error ("invalid rule: operator " ++ operator.id ++ " expects two values")
  else if operator.valueCount = -1 ∧ count < 1 then
    .error ("invalid rule: operator " ++ operator.id ++ " expects at least one value")
  else if valueType = valueNumber then
    if values.all (fun v => (toFloat v).isSome) then
      .ok ()
    else
      .error "invalid rule: numeric value expected"
  else if valueType = valueEnum then
    if values.all (fun v => (toStringVal v).isSome) then
      .ok ()
    else
      .error "invalid rule: string value expected"
  else
    .error "invalid rule: unsupported metric type"

/-- `rules.parseNumberValues` (rules.go lines 208-218). -/
def parseNumberValues : List AnyValue → Except String (List ℚ)
  | [] => .ok []
  | v :: rest =>
    match toFloat v with
    | none => .error "invalid number"
    | some f =>
      match parseNumberValues rest with
      | .error e => .error e
      | .ok out => .ok (f :: out)

/-- `rules.parseStringValues` (rules.go lines 220-230). -/
def parseStringValues : List AnyValue → Except String (List String)
  | [] => .ok []
  | v :: rest =>
    match toStringVal v with
    | none => .error "invalid string"
    | some s =>
      match parseStringValues rest with
      | .error e => .error e
      | .ok out => .ok (s :: out)

/-- `rules.evalNumber` (rules.go lines 270-294).  The indexed accesses
`values[0]`/`values[1]` are only reached after `validateValues` has checked
the arity, so the `getD` defaults are never used by the callers below. -/
def evalNumber (op : String) (metric : ℚ) (values : List ℚ) :
    Except String Bool :=
  if op = "eq" then .ok (decide (metric = values.getD 0 0))
  else if op = "neq" then .ok (decide (metric ≠ values.getD 0 0))
  else if op = "lt" then .ok (decide (metric < values.getD 0 0))
  else if op = "lte" then .ok (decide (metric ≤ values.getD 0 0))
  else if op = "gt" then .ok (decide (values.getD 0 0 < metric))
  else if op = "gte" then .ok (decide (values.getD 0 0 ≤ metric))
  else if op = "between" then
    let mn := values.getD 0 0
    let mx := values.getD 1 0
    let p := if mn > mx then (mx, mn) else (mn, mx)
    .ok (decide (p.1 ≤ metric ∧ metric ≤ p.2))
  else .error "invalid operator"

/-- `strings.ToLower`, modelled on ASCII letters (the activity-type enum
values the code compares are all ASCII). -/
def goToLower (s : String) : String :=
  String.mk (s.toList.map fun c =>
    if 65 ≤ c.toNat ∧ c.toNat ≤ 90 then Char.ofNat (c.toNat + 32) else c)

/-- `rules.evalEnum` (rules.go lines 296-320). -/
def evalEnum (op : String) (metric : String) (values : List String) :
    Except String Bool :=
  let metricNorm := goToLower metric
  if op = "eq" then .ok (goToLower (values.getD 0 "") == metricNorm)
  else if op = "neq" then .ok (!(goToLower (values.getD 0 "") == metricNorm))
  else if op = "in" then .ok (values.any (fun v => goToLower v == metricNorm))
  else if op = "not_in" then .ok (!(values.any (fun v => goToLower v == metricNorm)))
  else .error "invalid operator"

/-- `rules.evalCondition` (rules.go lines 189-206). -/
def evalCondition (valueType : String) (op : String) (metricValue : Value)
    (rawValues : List AnyValue) : Except String Bool :=
  if valueType = valueNumber then
    match parseNumberValues rawValues with
    | .error e => .error e
    | .ok values => evalNumber op metricValue.num values
  else if valueType = valueEnum then
    match parseStringValues rawValues with
    | .error e => .error e
    | .ok values => evalEnum op metricValue.str values
  else .error "unsupported value type"

/-- ASCII bytes of a string, as written by `hash.Write([]byte(s))`; all
strings hashed by the code are decimal digits and `':'`, for which UTF-8
bytes and code points coincide. -/
def asciiBytes (s : String) : List Nat :=
  s.toList.map Char.toNat

/-- One step of FNV-1a on 64 bits: XOR in the byte, multiply by the FNV
prime, wrap at 2^64. -/
def fnv64aStep (h b : Nat) : Nat :=
  ((h ^^^ b) * 1099511628211) % (2 ^ 64)

/-- `hash/fnv` New64a + Write + Sum64 over a byte list. -/
def fnv64a (bytes : List Nat) : Nat :=
  bytes.foldl fnv64aStep 14695981039346656037

/-- `rules.allowOneIn` (rules.go lines 359-366): FNV-64a of
`"<ruleID>:<activityID>"` modulo `n` equals 0.  For `n ≥ 2`, Go's
`uint64(n)` is `n.toNat`. -/
def allowOneIn (ruleID activityID : Int) (n : Int) : Bool :=
  if n ≤ 1 then true
  else (fnv64a (asciiBytes (toString ruleID ++ ":" ++ toString activityID))) % n.toNat == 0

/-- The per-condition body of the loops in `rules.ValidateRule` (rules.go
lines 53-65): metric lookup, operator lookup, value validation. -/
def validateConds (reg : Registry) : List Condition → Except String Unit
  | [] => .ok ()
  | cond :: rest =>
    match reg cond.metric with
    | none => .error ("invalid rule: unknown metric " ++ cond.metric)
    | some metric =>
      match operatorSpecFind defaultOperators metric.type cond.op with
      | none => .error ("invalid operator " ++ cond.op)
      | some operator =>
        match validateValues metric.type operator cond.values with
        | .error e => .error e
        | .ok () => validateConds reg rest

/-- Whether the allow-override guard of `rules.ValidateRule` fires
(rules.go lines 49-51): `Allow != nil && Allow.OneIn > 0 && Allow.OneIn < 2`. -/
def allowGuardBad : Option Allow → Bool
  | some allow => decide (allow.oneIn > 0 ∧ allow.oneIn < 2)
  | none => false

/-- `rules.ValidateRule` (rules.go lines 37-67); Go's early returns become
nested if-else. -/
def validateRule (rule : Rule) (reg : Registry) : Except String Unit :=
  if rule.conditions.length = 0 then
    .error "invalid rule: at least one condition required"
  else if ¬(rule.matchMode = "all" ∨ rule.matchMode = "any") then
    .error "invalid rule: match must be all or any"
  else if rule.action.type ≠ "" ∧ rule.action.type ≠ "hide" then
    .error "invalid rule: unsupported action"
  else if allowGuardBad rule.action.allow then
    .error "invalid rule: allow.one_in must be >= 2"
  else
    validateConds reg rule.conditions

/-- The per-condition body of the loop in `rules.Evaluate` (rules.go lines
73-92): metric lookup, operator lookup, value validation, metric
resolution, condition evaluation. -/
def condEval (reg : Registry) (ctx : Context) (cond : Condition) :
    Except String Bool :=
  match reg cond.metric with
  | none => .error ("unknown metric " ++ cond.metric)
  | some metric =>
    match operatorSpecFind defaultOperators metric.type cond.op with
    | none => .error ("invalid operator " ++ cond.op)
    | some operator =>
      match validateValues metric.type operator cond.values with
      | .error e => .error e
      | .ok () =>
        match metric.resolve ctx with
        | .error e => .error e
        | .ok value => evalCondition metric.type cond.op value cond.values

/-- The error categories the spec names for a condition: a metric id
absent from the registry, an operator not legal for the metric's value
type, or values failing type validation. -/
def condBroken (reg : Registry) (cond : Condition) : Prop :=
  reg cond.metric = none
  ∨ (∃ metric, reg cond.metric = some metric
      ∧ operatorSpecFind defaultOperators metric.type cond.op = none)
  ∨ (∃ metric operator, reg cond.metric = some metric
      ∧ operatorSpecFind defaultOperators metric.type cond.op = some operator
      ∧ ∃ e, validateValues metric.type operator cond.values = .error e)

/-- The condition loop of `rules.Evaluate` (rules.go lines 71-102):
`all` mode short-circuits on the first false condition, `any` mode on the
first true one; an empty list leaves `matched = matchAll`. -/
def evalCondLoop (reg : Registry) (ctx : Context) (matchAll : Bool) :
    List Condition → Except String Bool
  | [] => .ok matchAll
  | cond :: rest =>
    match condEval reg ctx cond with
    | .error e => .error e
    | .ok conditionMatched =>
      if matchAll then
        if !conditionMatched then .ok false
        else evalCondLoop reg ctx matchAll rest
      else
        if conditionMatched then .ok true
        else evalCondLoop reg ctx matchAll rest

/-- `rules.Evaluate` (rules.go lines 69-114); the Go result
`(matched, hide, err)` becomes `Except String (Bool × Bool)`. -/
def evaluate (rule : Rule) (reg : Registry) (ctx : Context) (ruleID : Int) :
    Except String (Bool × Bool) :=
  let matchAll : Bool := rule.matchMode != "any"
  match evalCondLoop reg ctx matchAll rule.conditions with
  | .error e => .error e
  | .ok matched =>
    if !matched then
      .ok (false, false)
    else if rule.action.type != "" && rule.action.type != "hide" then
      .error ("unsupported action " ++ rule.action.type)
    else
      match rule.action.allow with
      | some allow =>
        if allow.oneIn ≥ 2 then
          .ok (true, !(allowOneIn ruleID ctx.activity.id allow.oneIn))
        else
          .ok (true, true)
      | none => .ok (true, true)

end Rules

namespace Maps

/-! ## internal/maps: maps.go (types only; the Overpass HTTP client is an
external collaborator) -/

/-- `maps.FeatureType` is a Go string type; `maps.FeatureTrafficLight`. -/
def featureTrafficLight : String := "traffic_light"

/-- `maps.Feature`. -/
structure Feature where
  type : String := ""
  name : String := ""
deriving DecidableEq, Repr

/-- `maps.LatLon`. -/
structure LatLon where
  lat : ℚ := 0
  lon : ℚ := 0
deriving DecidableEq, Repr

/-- `maps.Road`. -/
structure Road where
  id : Int := 0
  name : String := ""
  highway : String := ""
  geometry : List LatLon := []
deriving DecidableEq, Repr

end Maps

namespace Gps

/-! ## internal/gps: stops.go -/

/-- `gps.Point`; `Time` is `Int` nanoseconds since the epoch. -/
structure Point where
  lat : ℚ := 0
  lon : ℚ := 0
  time : Int := 0
  speed : ℚ := 0
deriving DecidableEq, Repr

/-- `gps.Stop`; `Duration` is `Int` nanoseconds. -/
structure Stop where
  lat : ℚ := 0
  lon : ℚ := 0
  duration : Int := 0
deriving DecidableEq, Repr

/-- `gps.StopOptions`. -/
structure StopOptions where
  speedThreshold : ℚ := 0
  minDuration : Int := 0
deriving DecidableEq, Repr

/-- The loop of `gps.DetectStops` (stops.go lines 33-67), carrying the Go
loop state `(inStop, stopStart, last, stops)`; `last` is updated to the
current point at the end of every iteration, and the trailing
interval is flushed when the points run out (lines 58-67). -/
def detectStopsLoop (opts : StopOptions) :
    List Point → Bool → Point → Point → List Stop → List Stop
  | [], inStop, stopStart, last, stops =>
    if inStop then
      let duration := last.time - stopStart.time
      if duration ≥ opts.minDuration then
        stops ++ [{ lat := stopStart.lat, lon := stopStart.lon, duration := duration }]
      else stops
    else stops
  | p :: rest, inStop, stopStart, last, stops =>
    if p.speed ≤ opts.speedThreshold then
      if !inStop then
        detectStopsLoop opts rest true p p stops
      else
        detectStopsLoop opts rest true stopStart p stops
    else
      if inStop then
        let duration := last.time - stopStart.time
        let stops :=
          if duration ≥ opts.minDuration then
            stops ++ [{ lat := stopStart.lat, lon := stopStart.lon, duration := duration }]
          else stops
        detectStopsLoop opts rest false stopStart p stops
      else
        detectStopsLoop opts rest false stopStart p stops

/-- `gps.DetectStops` (stops.go lines 23-70).  Go's `var stopStart Point`
starts as the zero `Point`, and `last` is assigned the first point before
its first use (`if i == 0 { last = p }`). -/
def detectStops (points : List Point) (opts : StopOptions) : List Stop :=
  match points with
  | [] => []
  | p :: rest => detectStopsLoop opts (p :: rest) false {} p []

/-! Specification-side description of `DetectStops`, following the spec's
words: the maximal runs of consecutive points with speed at or below the
threshold, each emitting one Stop exactly when the time from the run's
first to the run's last point reaches `minDuration`. -/

/-- Single pass collecting the maximal runs of consecutive stopped points;
`acc`, when present, is the current run accumulated in reverse. -/
def stoppedRunsAux (thr : ℚ) : List Point → Option (List Point) → List (List Point)
  | [], none => []
  | [], some run => [run.reverse]
  | p :: rest, none =>
    if p.speed ≤ thr then stoppedRunsAux thr rest (some [p])
    else stoppedRunsAux thr rest none
  | p :: rest, some run =>
    if p.speed ≤ thr then stoppedRunsAux thr rest (some (p :: run))
    else run.reverse :: stoppedRunsAux thr rest none

/-- The maximal runs of consecutive points with speed at or below the
threshold, in order. -/
def stoppedRuns (thr : ℚ) (points : List Point) : List (List Point) :=
  stoppedRunsAux thr points none

/-- The Stop a maximal stopped run yields, if any: the run's first point
gives the position, the time from first to last point the duration, and
the Stop exists exactly when that duration reaches `minDuration`. -/
def emitRun (opts : StopOptions) : List Point → Option Stop
  | [] => none
  | p :: tail =>
    let lastPt := tail.getLastD p
    if lastPt.time - p.time ≥ opts.minDuration then
      some { lat := p.lat, lon := p.lon, duration := lastPt.time - p.time }
    else none

/-- The spec-side stop detector: one candidate Stop per maximal stopped
run. -/
def detectStopsSpec (points : List Point) (opts : StopOptions) : List Stop :=
  (stoppedRuns opts.speedThreshold points).filterMap (emitRun opts)

/-! ## internal/gps: crossing.go -/

/-- `gps.CrossingResult`. -/
structure CrossingResult where
  crossed : Bool := false
  roadName : String := ""
  roadType : String := ""
deriving DecidableEq, Repr

/-- `gps.segment`. -/
structure Segment where
  x1 : ℚ := 0
  y1 : ℚ := 0
  x2 : ℚ := 0
  y2 : ℚ := 0
deriving DecidableEq, Repr

/-- `gps.direction` (crossing.go lines 114-116). -/
def direction (x1 y1 x2 y2 x3 y3 : ℚ) : ℚ :=
  (x3 - x1) * (y2 - y1) - (y3 - y1) * (x2 - x1)

/-- `gps.onSegment` (crossing.go lines 119-122). -/
def onSegment (x1 y1 x2 y2 px py : ℚ) : Bool :=
  decide (px ≥ min x1 x2 ∧ px ≤ max x1 x2 ∧ py ≥ min y1 y2 ∧ py ≤ max y1 y2)

/-- `gps.segmentsIntersect` (crossing.go lines 85-111). -/
def segmentsIntersect (a b : Segment) : Bool :=
  let d1 := direction b.x1 b.y1 b.x2 b.y2 a.x1 a.y1
  let d2 := direction b.x1 b.y1 b.x2 b.y2 a.x2 a.y2
  let d3 := direction a.x1 a.y1 a.x2 a.y2 b.x1 b.y1
  let d4 := direction a.x1 a.y1 a.x2 a.y2 b.x2 b.y2
  if ((d1 > 0 ∧ d2 < 0) ∨ (d1 < 0 ∧ d2 > 0)) ∧
     ((d3 > 0 ∧ d4 < 0) ∨ (d3 < 0 ∧ d4 > 0)) then true
  else if d1 = 0 ∧ onSegment b.x1 b.y1 b.x2 b.y2 a.x1 a.y1 then true
  else if d2 = 0 ∧ onSegment b.x1 b.y1 b.x2 b.y2 a.x2 a.y2 then true
  else if d3 = 0 ∧ onSegment a.x1 a.y1 a.x2 a.y2 b.x1 b.y1 then true
  else if d4 = 0 ∧ onSegment a.x1 a.y1 a.x2 a.y2 b.x2 b.y2 then true
  else false

/-- The consecutive edges of a road polyline (the inner loop of
crossing.go lines 46-50). -/
def roadEdges : List Maps.LatLon → List Segment
  | a :: b :: rest =>
    { x1 := a.lon, y1 := a.lat, x2 := b.lon, y2 := b.lat } :: roadEdges (b :: rest)
  | _ => []

/-- The forward search of crossing.go lines 29-36: starting at
`i = stopEndIdx + 1`, keep `endIdx := i` and stop early at the first point
at least 15 meters (by `hav`) from the start point; at most 14 points are
consumed (`i < stopEndIdx+15`).  `hav` abstracts `gps.haversineMeters`,
whose trigonometry has no exact rational form; no claim below depends on
its values. -/
def findEndLoop (hav : ℚ → ℚ → ℚ → ℚ → ℚ) (points : List Point)
    (startPt : Point) (s : Nat) : Nat → Nat → Nat := fun i endIdx =>
  if h : i < points.length ∧ i < s + 15 then
    let pt := points.getD i {}
    if hav startPt.lat startPt.lon pt.lat pt.lon ≥ 15 then i
    else findEndLoop hav points startPt s (i + 1) i
  else endIdx
termination_by i _ => s + 15 - i
decreasing_by
  omega

/-- `gps.DetectRoadCrossing` (crossing.go lines 19-62), with the haversine
distance abstracted as `hav` (see `findEndLoop`). -/
def detectRoadCrossing (hav : ℚ → ℚ → ℚ → ℚ → ℚ) (points : List Point)
    (stopEndIdx : Int) (roads : List Maps.Road) : CrossingResult :=
  if stopEndIdx < 0 ∨ stopEndIdx ≥ (points.length : Int) - 1 ∨ roads.length = 0 then
    {}
  else
    let s := stopEndIdx.toNat
    let startPt := points.getD s {}
    let endIdx := findEndLoop hav points startPt s (s + 1) (s + 1)
    let endPt := points.getD endIdx {}
    let pathSeg : Segment :=
      { x1 := startPt.lon, y1 := startPt.lat, x2 := endPt.lon, y2 := endPt.lat }
    match roads.find? (fun road =>
        (roadEdges road.geometry).any (fun roadSeg => segmentsIntersect pathSeg roadSeg)) with
    | some road => { crossed := true, roadName := road.name, roadType := road.highway }
    | none => {}

end Gps

namespace Storage

/-! ## internal/storage: store.go — the SQLite-backed store

The store is modelled as explicit state: one map per table, plus the
rowid-allocation cursor of the `activities` table.  All times live at the
granularity the database stores them: Unix seconds (`Int`).  SQL failures
of the driver itself are not modelled; the logical error cases of each
method (no rows, validation) are. -/

/-- `storage.Job` — a row of the `jobs` table; the three time columns are
stored as Unix seconds. -/
structure Job where
  id : Int := 0
  type : String := ""
  status : String := ""
  payload : String := ""
  cursor : String := ""
  attempts : Int := 0
  maxAttempts : Int := 0
  lastError : String := ""
  nextRunAt : Int := 0
  createdAt : Int := 0
  updatedAt : Int := 0
deriving DecidableEq, Repr

/-- The SQL eligibility predicate of `Store.ClaimJob` (store.go, the
`WHERE` clause): due `queued`/`retry` jobs, or `running` jobs whose
`updated_at` is at or before the stale cutoff `now − staleAfter`. -/
def jobEligible (now staleCutoff : Int) (j : Job) : Bool :=
  decide (((j.status = "queued" ∨ j.status = "retry") ∧ j.nextRunAt ≤ now)
    ∨ (j.status = "running" ∧ j.updatedAt ≤ staleCutoff))

/-- Strict order of the `ORDER BY next_run_at, id` clause of
`Store.ClaimJob`. -/
def jobBefore (a b : Job) : Bool :=
  decide (a.nextRunAt < b.nextRunAt ∨ (a.nextRunAt = b.nextRunAt ∧ a.id < b.id))

/-- `SELECT … WHERE eligible ORDER BY next_run_at, id LIMIT 1`: the least
eligible job in the `(next_run_at, id)` order, if any. -/
def selectEligibleJob (now staleCutoff : Int) : List Job → Option Job
  | [] => none
  | j :: rest =>
    let r := selectEligibleJob now staleCutoff rest
    if jobEligible now staleCutoff j then
      match r with
      | none => some j
      | some k => if jobBefore k j then some k else some j
    else r

/-- `Store.ClaimJob` (store.go lines 542-594): one transaction that selects
the least eligible job, marks it `running` with `attempts+1` and
`updated_at = now`, and returns it; with no eligible row the `Scan` yields
`sql.ErrNoRows`, nothing is written, and no job is returned (modelled as
`none`).  `staleAfter` is in seconds (`now.Add(-staleAfter).Unix()` for
whole-second inputs is `now − staleAfter`). -/
def claimWrite (j : Job) (now : Int) (k : Job) : Job :=
  { k with status := "running", attempts := j.attempts + 1, updatedAt := now }

/-- See the comment above `claimWrite`: `claimWrite` is the
`UPDATE jobs SET status = 'running', attempts = ?, updated_at = ?` row
transformation with the selected job's incremented attempt count, and
`claimJob` is the whole transaction. -/
def claimJob (now staleAfter : Int) (jobs : List Job) : Option Job × List Job :=
  let staleCutoff := now - staleAfter
  match selectEligibleJob now staleCutoff jobs with
  | none => (none, jobs)
  | some j =>
    (some (claimWrite j now j),
     jobs.map fun k => if k.id = j.id then claimWrite j now k else k)

/-- A row of the `activities` table (the columns the embedded code reads
and writes); times are Unix seconds. -/
structure ActivityRow where
  userId : Int := 0
  type : String := ""
  name : String := ""
  startTime : Int := 0
  description : String := ""
  distance : ℚ := 0
  movingTime : Int := 0
  averagePower : ℚ := 0
  visibility : String := ""
  isPrivate : Bool := false
  hideFromHome : Bool := false
  hiddenByRule : Bool := false
  updatedAt : Int := 0
deriving DecidableEq, Repr

/-- A row of `activity_points` (the position in the list is the `seq`
column); `ts` is Unix seconds. -/
structure PointRow where
  lat : ℚ := 0
  lon : ℚ := 0
  ts : Int := 0
  speed : ℚ := 0
deriving DecidableEq, Repr

/-- A row of `activity_stats`. -/
structure StatsRow where
  stopCount : Int := 0
  stopTotalSeconds : Int := 0
  trafficLightStopCount : Int := 0
  updatedAt : Int := 0
deriving DecidableEq, Repr

/-- A row of `activity_stops` (`storage.ActivityStop`). -/
structure StopRow where
  seq : Int := 0
  lat : ℚ := 0
  lon : ℚ := 0
  startSeconds : ℚ := 0
  durationSeconds : Int := 0
  hasTrafficLight : Bool := false
  hasRoadCrossing : Bool := false
  crossingRoad : String := ""
deriving DecidableEq, Repr

/-- A row of `hide_rules` (`storage.HideRule`).  The `condition` column
holds JSON text; `decodedCondition` carries the outcome of the external
`encoding/json` decode of that text (`none` when the decode, or the
trailing-data check of `ParseRuleJSON`, fails). -/
structure RuleRow where
  id : Int := 0
  userId : Int := 0
  name : String := ""
  enabled : Bool := false
  decodedCondition : Option Rules.Rule := none
  createdAt : Int := 0
  updatedAt : Int := 0

/-- The store state: one map per table.  `hideRules` is kept in the
`created_at DESC` order that `ListHideRules` returns.  `nextId` models
SQLite's rowid allocation for inserts into `activities` that carry no
explicit id (the next unused rowid). -/
structure StoreState where
  activities : Int → Option ActivityRow
  points : Int → List PointRow
  statsTable : Int → Option StatsRow
  stops : Int → List StopRow
  hideRules : List RuleRow
  nextId : Int

/-- `Store.HasActivity`. -/
def hasActivity (s : StoreState) (activityID : Int) : Bool :=
  (s.activities activityID).isSome

/-- `Store.CountActivityPoints`. -/
def countActivityPoints (s : StoreState) (activityID : Int) : Nat :=
  (s.points activityID).length

/-- `Store.LoadActivityPoints`: rows ordered by `seq`, each point's time
rebuilt with `time.Unix(ts, 0)`. -/
def loadActivityPoints (s : StoreState) (activityID : Int) : List Gps.Point :=
  (s.points activityID).map fun r =>
    { lat := r.lat, lon := r.lon, time := r.ts * 1000000000, speed := r.speed }

/-- The argument record of `Store.UpsertActivity` (`storage.Activity` as
filled in by the ingest path); `startTime` is `Int` nanoseconds. -/
structure ActivityUpsert where
  id : Int := 0
  userId : Int := 0
  type : String := ""
  name : String := ""
  startTime : Int := 0
  description : String := ""
  distance : ℚ := 0
  movingTime : Int := 0
  averagePower : ℚ := 0
  visibility : String := ""
  isPrivate : Bool := false
  hideFromHome : Bool := false
deriving DecidableEq, Repr

/-- The `activities` row written by `upsertActivityWithPoints`: the insert
column list omits `hidden_by_rule`, so a fresh insert leaves it at the
schema default `false` and the `ON CONFLICT … DO UPDATE` keeps the
existing value. -/
def upsertRow (a : ActivityUpsert) (now : Int) (old : Option ActivityRow) : ActivityRow :=
  { userId := a.userId, type := a.type, name := a.name,
    startTime := Int.fdiv a.startTime 1000000000, description := a.description,
    distance := a.distance, movingTime := a.movingTime,
    averagePower := a.averagePower, visibility := a.visibility,
    isPrivate := a.isPrivate, hideFromHome := a.hideFromHome,
    hiddenByRule := match old with
      | some r => r.hiddenByRule
      | none => false,
    updatedAt := now }

/-- `Store.upsertActivityWithPoints` with `allowUpsert = true` (store.go
lines 259-341), as called from the ingest path: upsert the activity row
(under its own id, or under a fresh rowid when `activity.ID == 0`), then
delete and re-insert the activity's points.  Driver-level SQL failures are
not modelled, so the result is the new state and the id written. -/
def upsertActivityWithPoints (s : StoreState) (now : Int) (a : ActivityUpsert)
    (pts : List Gps.Point) : Int × StoreState :=
  let activityID := if a.id ≠ 0 then a.id else s.nextId
  let afterRow : StoreState :=
    if a.id ≠ 0 then
      { s with activities := fun k =>
          if k = a.id then some (upsertRow a now (s.activities a.id)) else s.activities k }
    else
      { s with
        activities := fun k =>
          if k = s.nextId then some (upsertRow a now none) else s.activities k,
        nextId := s.nextId + 1 }
  let newPts : List PointRow := pts.map fun p =>
    { lat := p.lat, lon := p.lon, ts := Int.fdiv p.time 1000000000, speed := p.speed }
  (activityID,
   { afterRow with points := fun k =>
       if k = activityID then newPts else afterRow.points k })

/-- `Store.UpsertActivity` (store.go lines 245-257): validation, then
`upsertActivityWithPoints` with `allowUpsert = true`. -/
def upsertActivity (s : StoreState) (now : Int) (a : ActivityUpsert)
    (pts : List Gps.Point) : Except String (Int × StoreState) :=
  if a.startTime = 0 then .error "activity start time required"
  else if a.type = "" then .error "activity type required"
  else if a.name = "" then .error "activity name required"
  else .ok (upsertActivityWithPoints s now a pts)

/-- `Store.UpsertActivityStats` (store.go lines 1120-1136): replace-style
upsert keyed by activity id; a zero `UpdatedAt` on the argument is
replaced by `time.Now()` (`now`). -/
def upsertActivityStats (s : StoreState) (now : Int) (activityID : Int)
    (st : StatsRow) : StoreState :=
  let upd := if st.updatedAt = 0 then now else st.updatedAt
  { s with statsTable := fun k =>
      if k = activityID then
        some { stopCount := st.stopCount, stopTotalSeconds := st.stopTotalSeconds,
               trafficLightStopCount := st.trafficLightStopCount, updatedAt := upd }
      else s.statsTable k }

/-- `Store.ListHideRules` (store.go lines 732-774): a zero user id is
remapped to 1; rows are returned in `created_at DESC` order, which is the
order `hideRules` is kept in. -/
def listHideRules (s : StoreState) (userID : Int) : List RuleRow :=
  let uid := if userID = 0 then 1 else userID
  s.hideRules.filter (fun r => r.userId = uid)

/-- `Store.UpdateActivityHiddenByRule` (store.go lines 1190-1200): rejects
a zero id, then `UPDATE activities SET hidden_by_rule WHERE id = ?` (a
missing row makes the update a silent no-op). -/
def updateActivityHiddenByRule (s : StoreState) (activityID : Int)
    (hidden : Bool) : Except String StoreState :=
  if activityID = 0 then .error "activity id required"
  else .ok { s with activities := fun k =>
    if k = activityID then (s.activities k).map (fun r => { r with hiddenByRule := hidden })
    else s.activities k }

end Storage

namespace Ingest

/-! ## internal/ingest: ingest.go

The Strava HTTP client is an external collaborator; its responses enter
the model through `IngestEnv`. -/

/-- `strava.Activity` as returned by `Client.GetActivity` (the fields the
ingest path reads); `startDate` is `Int` nanoseconds. -/
structure StravaActivity where
  id : Int := 0
  name : String := ""
  type : String := ""
  startDate : Int := 0
  description : String := ""
  distance : ℚ := 0
  movingTime : Int := 0
deriving DecidableEq, Repr

/-- `strava.StreamSet`. -/
structure StreamSet where
  latlng : List (ℚ × ℚ) := []
  timeOffsetsSec : List Int := []
  velocitySmooth : List ℚ := []
deriving DecidableEq, Repr

/-- The upstream API as seen by the ingestor: the responses of
`GetActivity` and `GetStreams` per activity id (fixed external inputs),
plus whether the client is configured at all (`Ingestor.Strava != nil`). -/
structure IngestEnv where
  hasStrava : Bool := true
  getActivity : Int → Except String StravaActivity
  getStreams : Int → Except String StreamSet

/-- `ingest.buildPoints` (ingest.go lines 70-94): each point takes its
coordinates from `latlng`, its time from `start + offset·1s`, and its
speed from `velocity_smooth` when that stream is long enough (else the
zero value). -/
def buildPoints (start : Int) (streams : StreamSet) : Except String (List Gps.Point) :=
  if streams.latlng.length = 0 then .error "missing latlng stream"
  else if streams.timeOffsetsSec.length = 0 then .error "missing time stream"
  else if streams.latlng.length ≠ streams.timeOffsetsSec.length then
    .error "latlng/time length mismatch"
  else
    .ok (streams.latlng.enum.map fun pair =>
      { lat := pair.2.1, lon := pair.2.2,
        time := start + (streams.timeOffsetsSec.getD pair.1 0) * 1000000000,
        speed := streams.velocitySmooth.getD pair.1 0 })

/-- The `storage.Activity` argument `fetchAndUpsert` builds: `UserID = 0`
and only the fetched identity fields (distance and the rest stay zero
values). -/
def upsertArg (activity : StravaActivity) : Storage.ActivityUpsert :=
  { id := activity.id, userId := 0, type := activity.type,
    name := activity.name, startTime := activity.startDate,
    description := activity.description }

/-- `Ingestor.fetchAndUpsert` (ingest.go lines 39-68): fetch activity and
streams, build the points, and upsert. -/
def fetchAndUpsert (env : IngestEnv) (now : Int) (s : Storage.StoreState)
    (activityID : Int) : Except String Storage.StoreState :=
  if !env.hasStrava then .error "strava client not configured"
  else
    match env.getActivity activityID with
    | .error e => .error e
    | .ok activity =>
      match env.getStreams activityID with
      | .error e => .error e
      | .ok streams =>
        match buildPoints activity.startDate streams with
        | .error e => .error e
        | .ok points =>
          match Storage.upsertActivity s now (upsertArg activity) points with
          | .error e => .error e
          | .ok pair => .ok pair.2

/-- `Ingestor.EnsureActivity` (ingest.go lines 18-37): fetch only when the
activity row is missing or it has no stored points. -/
def ensureActivity (env : IngestEnv) (now : Int) (s : Storage.StoreState)
    (activityID : Int) : Except String Storage.StoreState :=
  if !(Storage.hasActivity s activityID) then fetchAndUpsert env now s activityID
  else if Storage.countActivityPoints s activityID = 0 then
    fetchAndUpsert env now s activityID
  else .ok s

end Ingest

namespace Processor

/-! ## internal/processor: the stop-stats processor and the pipeline -/

/-- The map-feature provider of `StopStatsProcessor` (`maps.API`); `none`
models a nil `MapAPI`.  A fixed external input: the features near a
coordinate. -/
abbrev MapApi : Type := Option (ℚ → ℚ → Except String (List Maps.Feature))

/-- The loop of `StopStatsProcessor.Process` over detected stops: add each
stop's whole seconds (`int(stop.Duration.Seconds())`, truncation toward
zero) to the total, and count a stop near a traffic light once (the inner
loop breaks at the first `FeatureTrafficLight`). -/
def stopStatsLoop (mapApi : MapApi) :
    List Gps.Stop → Storage.StatsRow → Except String Storage.StatsRow
  | [], st => .ok st
  | stop :: rest, st =>
    let st := { st with
      stopTotalSeconds := st.stopTotalSeconds + Int.tdiv stop.duration 1000000000 }
    match mapApi with
    | none => stopStatsLoop mapApi rest st
    | some api =>
      match api stop.lat stop.lon with
      | .error e => .error e
      | .ok features =>
        let st :=
          if features.any (fun f => f.type == Maps.featureTrafficLight) then
            { st with trafficLightStopCount := st.trafficLightStopCount + 1 }
          else st
        stopStatsLoop mapApi rest st

/-- The stats value `StopStatsProcessor.Process` computes from a loaded
point list: `StopStats{StopCount: len(stops)}` threaded through
`stopStatsLoop` (the zero `UpdatedAt` stays zero and is replaced by the
store on upsert). -/
def stopStatsValue (mapApi : MapApi) (opts : Gps.StopOptions)
    (points : List Gps.Point) : Except String Storage.StatsRow :=
  let stops := Gps.detectStops points opts
  stopStatsLoop mapApi stops { stopCount := (stops.length : Int) }

/-- `StopStatsProcessor.Process` (part of the processor package): load the
activity's points, compute stop stats, and upsert them. -/
def stopStatsProcess (mapApi : MapApi) (opts : Gps.StopOptions) (now : Int)
    (s : Storage.StoreState) (activityID : Int) : Except String Storage.StoreState :=
  match stopStatsValue mapApi opts (Storage.loadActivityPoints s activityID) with
  | .error e => .error e
  | .ok st => .ok (Storage.upsertActivityStats s now activityID st)

/-- `PipelineProcessor.Process`: `EnsureActivity` when an ingestor is
configured, then `StopStatsProcessor.Process` when a stats processor is
configured (`hasIngest`/`hasStats` model the nil checks). -/
def pipelineProcess (hasIngest : Bool) (env : Ingest.IngestEnv)
    (hasStats : Bool) (mapApi : MapApi) (opts : Gps.StopOptions) (now : Int)
    (s : Storage.StoreState) (activityID : Int) : Except String Storage.StoreState :=
  match (if hasIngest then Ingest.ensureActivity env now s activityID else .ok s) with
  | .error e => .error e
  | .ok s₁ => if hasStats then stopStatsProcess mapApi opts now s₁ activityID else .ok s₁

/-! ## internal/processor: the rules processor -/

/-- `rules.ParseRuleJSON` applied to a stored rule row: the external JSON
decode outcome (`decodedCondition`), normalized by the repository's
defaulting of `match` and the action type. -/
def parseRuleRow (row : Storage.RuleRow) : Option Rules.Rule :=
  row.decodedCondition.map Rules.normalizeParsedRule

/-- The evaluation context `RulesProcessor.Process` builds from the loaded
activity row and stats row.  The activity id in the context is the
requested id (the row was selected by it); `startUnix` is the stored
`start_time`, since a value loaded through `time.Unix` is never the zero
`time.Time` and so always passes the `!IsZero` check. -/
def rulesCtx (activityID : Int) (activity : Storage.ActivityRow)
    (stats : Storage.StatsRow) : Rules.Context :=
  { activity := { id := activityID, type := activity.type, name := activity.name,
                  startUnix := activity.startTime, distanceM := activity.distance,
                  movingTimeS := activity.movingTime },
    stats := { stopCount := stats.stopCount,
               stopTotalSeconds := stats.stopTotalSeconds,
               trafficLightStopCount := stats.trafficLightStopCount } }

/-- The rule loop of `RulesProcessor.Process`: disabled rows, rows whose
JSON fails to parse, rows failing validation and rows whose evaluation
errors are all skipped; the loop stops at the first rule that matches and
hides. -/
def rulesLoop (reg : Rules.Registry) (ctx : Rules.Context) :
    List Storage.RuleRow → Bool
  | [] => false
  | row :: rest =>
    if !row.enabled then rulesLoop reg ctx rest
    else
      match parseRuleRow row with
      | none => rulesLoop reg ctx rest
      | some ruleDef =>
        match Rules.validateRule ruleDef reg with
        | .error _ => rulesLoop reg ctx rest
        | .ok () =>
          match Rules.evaluate ruleDef reg ctx row.id with
          | .error _ => rulesLoop reg ctx rest
          | .ok mh => if mh.1 && mh.2 then true else rulesLoop reg ctx rest

/-- `RulesProcessor.Process`: load activity, rules and stats (a missing
stats row is `sql.ErrNoRows` and is tolerated, leaving zero stats), run
the rule loop, and unconditionally write the resulting hidden flag.
`storePresent` models the `p.Store == nil` check, `regOpt` the possibly
nil `p.Registry`. -/
def rulesProcess (storePresent : Bool) (regOpt : Option Rules.Registry)
    (s : Storage.StoreState) (activityID : Int) : Except String Storage.StoreState :=
  if !storePresent then .ok s
  else
    match s.activities activityID with
    | none => .error "sql: no rows in result set"
    | some activity =>
      let ruleRows := Storage.listHideRules s activity.userId
      let stats := (s.statsTable activityID).getD {}
      let reg := regOpt.getD Rules.defaultRegistry
      let hide := rulesLoop reg (rulesCtx activityID activity stats) ruleRows
      Storage.updateActivityHiddenByRule s activityID hide

/-- The hide decision a successful `RulesProcessor.Process` run computes
for a loaded activity row: the rule loop over the user's stored rules,
with the nil registry defaulted and a missing stats row read as zeros. -/
def rulesComputedHide (regOpt : Option Rules.Registry) (s : Storage.StoreState)
    (activityID : Int) (activity : Storage.ActivityRow) : Bool :=
  rulesLoop (regOpt.getD Rules.defaultRegistry)
    (rulesCtx activityID activity ((s.statsTable activityID).getD {}))
    (Storage.listHideRules s activity.userId)

/-- The store state after overwriting the activity row's hidden flag. -/
def writeHiddenFlag (s : Storage.StoreState) (activityID : Int)
    (activity : Storage.ActivityRow) (b : Bool) : Storage.StoreState :=
  { s with activities := fun k =>
      if k = activityID then some { activity with hiddenByRule := b }
      else s.activities k }

end Processor

/-! ## Concrete inputs used by the claim theorems below -/

/-- Rule carrying a sampling override in the spec's JSON shape
`"action":{"type":"hide","override":{"one_in":10}}` (the `override` key
populates `Action.Override`; `Action.Allow` stays nil). -/
def claim1Rule : Rules.Rule :=
  { matchMode := "all",
    conditions := [⟨"activity_type", "eq", [.str "Ride" none]⟩],
    action := { type := "hide", override := some { oneIn := 10 }, allow := none } }

def claim1Ctx : Rules.Context :=
  { activity := { id := 4, type := "Ride" } }

/-- Match-all rule whose first condition does not match the context below
and whose second condition names an unknown metric. -/
def claim5Rule : Rules.Rule :=
  { matchMode := "all",
    conditions := [⟨"distance_m", "lt", [.num 10]⟩, ⟨"nope", "eq", [.num 1]⟩],
    action := { type := "hide" } }

def claim5Ctx : Rules.Context :=
  { activity := { distanceM := 25000 } }

/-- Rule whose single (and hence first) condition names an unknown
metric. -/
def claim5WitnessRule : Rules.Rule :=
  { matchMode := "all",
    conditions := [⟨"nope", "eq", [.num 1]⟩],
    action := { type := "hide" } }

/-- Rule with a present `allow` sampling override whose `one_in` is 0. -/
def claim8Rule : Rules.Rule :=
  { matchMode := "all",
    conditions := [⟨"distance_m", "lt", [.num 20000]⟩],
    action := { type := "hide", allow := some { oneIn := 0 } } }

/-- Rule with a present `allow` sampling override whose `one_in` is 1. -/
def claim8WitnessRule : Rules.Rule :=
  { matchMode := "all",
    conditions := [⟨"distance_m", "lt", [.num 20000]⟩],
    action := { type := "hide", allow := some { oneIn := 1 } } }

/-- A due queued job. -/
def claim4QueuedJob : Storage.Job :=
  { id := 1, type := "backfill", status := "queued", nextRunAt := 5 }

/-- A job claimed at time 10 (status `running`, `updated_at = 10`). -/
def claim4RunningJob : Storage.Job :=
  { id := 1, type := "backfill", status := "running", attempts := 1,
    nextRunAt := 5, updatedAt := 10 }

/-- An activity row currently hidden by a rule (the reprocessing run below
unhides it, its user having no stored rules). -/
def claim9Row : Storage.ActivityRow :=
  { userId := 1, type := "Ride", name := "a", startTime := 100, hiddenByRule := true }

def claim9State : Storage.StoreState :=
  { activities := fun k => if k = 1 then some claim9Row else none,
    points := fun _ => [], statsTable := fun _ => none, stops := fun _ => [],
    hideRules := [], nextId := 2 }

/-- Upstream response with a zero activity id (a malformed payload the
ingest path does not guard against). -/
def claim3Act : Ingest.StravaActivity :=
  { id := 0, name := "x", type := "Ride", startDate := 1000000000 }

/-- Two coincident samples 60 seconds apart, no velocity stream (speeds
default to 0). -/
def claim3Streams : Ingest.StreamSet :=
  { latlng := [(0, 0), (0, 0)], timeOffsetsSec := [0, 60] }

def claim3Env : Ingest.IngestEnv :=
  { hasStrava := true,
    getActivity := fun _ => .ok claim3Act,
    getStreams := fun _ => .ok claim3Streams }

def claim3Opts : Gps.StopOptions := { speedThreshold := 1, minDuration := 60000000000 }

def claim3Row : Storage.ActivityRow :=
  { userId := 1, type := "Ride", name := "a", startTime := 1 }

/-- Store with one unrelated activity (id 5) and rowid cursor 6; activity
7 is requested.  Run 1 auto-inserts the zero-id payload under rowid 6; run
2 under rowid 7 — which \*is\* the requested id, changing the stats the
second run computes for activity 7. -/
def claim3State : Storage.StoreState :=
  { activities := fun k => if k = 5 then some claim3Row else none,
    points := fun _ => [], statsTable := fun _ => none, stops := fun _ => [],
    hideRules := [], nextId := 6 }

def claim3Run1 : Except String Storage.StoreState :=
  Processor.pipelineProcess true claim3Env true none claim3Opts 77 claim3State 7

def claim3S1 : Storage.StoreState :=
  match claim3Run1 with
  | .ok t => t
  | .error _ => claim3State

def claim3Run2 : Except String Storage.StoreState :=
  Processor.pipelineProcess true claim3Env true none claim3Opts 77 claim3S1 7

def claim3S2 : Storage.StoreState :=
  match claim3Run2 with
  | .ok t => t
  | .error _ => claim3State

/-- Environment whose upstream always fails: the pipeline below never
needs it because the data is already stored. -/
def claim3wEnv : Ingest.IngestEnv :=
  { hasStrava := true,
    getActivity := fun _ => .error "unavailable",
    getStreams := fun _ => .error "unavailable" }

def claim3wState : Storage.StoreState :=
  { activities := fun k => if k = 1 then some claim3Row else none,
    points := fun k => if k = 1 then [{ lat := 0, lon := 0, ts := 10, speed := 0 }] else [],
    statsTable := fun _ => none, stops := fun _ => [],
    hideRules := [], nextId := 2 }

def claim3wRun1 : Except String Storage.StoreState :=
  Processor.pipelineProcess true claim3wEnv true none claim3Opts 77 claim3wState 1

def claim3wS1 : Storage.StoreState :=
  match claim3wRun1 with
  | .ok t => t
  | .error _ => claim3wState

def claim3wRun2 : Except String Storage.StoreState :=
  Processor.pipelineProcess true claim3wEnv true none claim3Opts 77 claim3wS1 1

def claim3wS2 : Storage.StoreState :=
  match claim3wRun2 with
  | .ok t => t
  | .error _ => claim3wState

/-! ## Theorems settling the claims -/

/-- **C6.** `DetectRoadCrossing` is total (it returns a `CrossingResult`,
never an error, by its type) and yields "no crossing" — the zero
`CrossingResult` with empty road name and type — when the road list is
empty or the index is out of range (negative or at least
`len(points) - 1`; the latter also covers every case with no forward
points after the stop end, since a forward point exists exactly when
`stopEndIdx < len(points) - 1`). -/
theorem claim6_degenerate_input_no_crossing
    (hav : ℚ → ℚ → ℚ → ℚ → ℚ) (points : List Gps.Point) (stopEndIdx : Int)
    (roads : List Maps.Road)
    (h : roads = [] ∨ stopEndIdx < 0 ∨ stopEndIdx ≥ (points.length : Int) - 1) :
    Gps.detectRoadCrossing hav points stopEndIdx roads =
      { crossed := false, roadName := "", roadType := "" } := by
  have h' : stopEndIdx < 0 ∨ stopEndIdx ≥ (points.length : Int) - 1 ∨ roads.length = 0 := by
    rcases h with h | h | h
    · exact Or.inr (Or.inr (by simp [h]))
    · exact Or.inl h
    · exact Or.inr (Or.inl h)
  unfold Gps.detectRoadCrossing
  rw [if_pos h']

/-- Witness for C6: the empty road list (with empty points and index 0)
resolves to "no crossing". -/
theorem claim6_witness :
    (([] : List Maps.Road) = [] ∨ (0 : Int) < 0 ∨ (0 : Int) ≥ (([] : List Gps.Point).length : Int) - 1)
    ∧ Gps.detectRoadCrossing (fun _ _ _ _ => 0) [] 0 [] =
        { crossed := false, roadName := "", roadType := "" } :=
  ⟨Or.inl rfl, claim6_degenerate_input_no_crossing (fun _ _ _ _ => 0) [] 0 [] (Or.inl rfl)⟩

/-- `evalNumber` on `between` computes the unordered-bounds containment. -/
theorem evalNumber_between_eq (m x y : ℚ) :
    Rules.evalNumber "between" m [x, y] =
      .ok (decide (min x y ≤ m ∧ m ≤ max x y)) := by
  rcases le_or_lt x y with h | h
  · have hxy : ¬ (x > y) := not_lt.mpr h
    simp [Rules.evalNumber, hxy, min_eq_left h, max_eq_right h]
  · have hxy : x > y := h
    simp [Rules.evalNumber, hxy, min_eq_right h.le, max_eq_left h.le]

/-- **C7.** The `between` operator is symmetric in its two bounds: for any
metric value `m` and bounds `a`, `b` (as Go values convertible by
`toFloat`), evaluating the number condition `{op: between}` over
`[v₁, v₂]` equals evaluating it over `[v₂, v₁]`, and both compute
`min a b ≤ m ≤ max a b`. -/
theorem claim7_between_bounds_symmetric (m a b : ℚ)
    (v₁ v₂ : Rules.AnyValue)
    (h₁ : Rules.toFloat v₁ = some a) (h₂ : Rules.toFloat v₂ = some b) :
    Rules.evalCondition Rules.valueNumber "between"
        { type := Rules.valueNumber, num := m } [v₁, v₂]
      = Rules.evalCondition Rules.valueNumber "between"
        { type := Rules.valueNumber, num := m } [v₂, v₁]
    ∧ Rules.evalCondition Rules.valueNumber "between"
        { type := Rules.valueNumber, num := m } [v₁, v₂]
      = .ok (decide (min a b ≤ m ∧ m ≤ max a b)) := by
  have p₁ : Rules.parseNumberValues [v₁, v₂] = .ok [a, b] := by
    simp [Rules.parseNumberValues, h₁, h₂]
  have p₂ : Rules.parseNumberValues [v₂, v₁] = .ok [b, a] := by
    simp [Rules.parseNumberValues, h₁, h₂]
  have e₁ : Rules.evalCondition Rules.valueNumber "between"
      { type := Rules.valueNumber, num := m } [v₁, v₂] =
      Rules.evalNumber "between" m [a, b] := by
    simp [Rules.evalCondition, p₁]
  have e₂ : Rules.evalCondition Rules.valueNumber "between"
      { type := Rules.valueNumber, num := m } [v₂, v₁] =
      Rules.evalNumber "between" m [b, a] := by
    simp [Rules.evalCondition, p₂]
  rw [e₁, e₂, evalNumber_between_eq, evalNumber_between_eq]
  constructor
  · rw [min_comm, max_comm]
  · rfl

/-- Witness for C7: bounds 20 and 10 in either order around the value
15. -/
theorem claim7_witness :
    Rules.toFloat (.num 20) = some 20 ∧ Rules.toFloat (.num 10) = some 10
    ∧ (Rules.evalCondition Rules.valueNumber "between"
          { type := Rules.valueNumber, num := (15 : ℚ) } [.num 20, .num 10]
        = Rules.evalCondition Rules.valueNumber "between"
          { type := Rules.valueNumber, num := (15 : ℚ) } [.num 10, .num 20]
      ∧ Rules.evalCondition Rules.valueNumber "between"
          { type := Rules.valueNumber, num := (15 : ℚ) } [.num 20, .num 10]
        = .ok (decide (min (20 : ℚ) 10 ≤ 15 ∧ (15 : ℚ) ≤ max 20 10))) :=
  ⟨rfl, rfl, claim7_between_bounds_symmetric 15 20 10 (.num 20) (.num 10) rfl rfl⟩

/-- **C8, counterexample.**  The claim says a rule whose action carries a
present sampling override object with `one_in < 2` is rejected; but
`ValidateRule` only rejects `0 < one_in < 2`, so a present `allow` object
with `one_in = 0` (which is `< 2`) is accepted. -/
theorem claim8_counterexample :
    claim8Rule.action.allow = some { oneIn := 0 }
    ∧ (0 : Int) < 2
    ∧ Rules.validateRule claim8Rule Rules.defaultRegistry = .ok () :=
  ⟨rfl, by decide, by decide⟩

/-- **C8, amended.**  A present `allow` override is rejected by
`ValidateRule` exactly when its `one_in` is positive and below 2
(`one_in = 1`); `one_in ≤ 0` is treated as no override and accepted, and
the `override` field is not validated.  Stated here: a positive `one_in`
below 2 always yields an error. -/
theorem claim8_amended (rule : Rules.Rule) (reg : Rules.Registry)
    (a : Rules.Allow) (hallow : rule.action.allow = some a)
    (hpos : 0 < a.oneIn) (hlt : a.oneIn < 2) :
    ∃ e, Rules.validateRule rule reg = .error e := by
  unfold Rules.validateRule
  split_ifs with h₁ h₂ h₃ h₄
  any_goals exact ⟨_, rfl⟩
  exfalso
  rw [hallow] at h₄
  simp [Rules.allowGuardBad] at h₄
  omega

/-- Witness for the amended C8: a present `allow` with `one_in = 1` is
rejected. -/
theorem claim8_amended_witness :
    claim8WitnessRule.action.allow = some { oneIn := 1 }
    ∧ (0 : Int) < 1 ∧ (1 : Int) < 2
    ∧ ∃ e, Rules.validateRule claim8WitnessRule Rules.defaultRegistry = .error e :=
  ⟨rfl, by decide, by decide,
   claim8_amended claim8WitnessRule Rules.defaultRegistry { oneIn := 1 } rfl
     (by decide) (by decide)⟩

/-- **C10.**  A rule with an empty condition list and a match mode other
than `"any"` evaluates to `matched = true` (vacuous truth), and with a
hide action and no sampling override also `hide = true`; the parse
normalization defaults an absent match to `"all"` and an absent action
type to `"hide"`, so a parsed minimal rule with no conditions hides every
activity if it reaches evaluation. -/
theorem claim10_empty_conditions_hide :
    (∀ (reg : Rules.Registry) (ctx : Rules.Context) (rid : Int) (r : Rules.Rule),
        r.conditions = [] → r.matchMode ≠ "any" → r.action.type = "hide" →
        r.action.allow = none →
        Rules.evaluate r reg ctx rid = .ok (true, true))
    ∧ (∀ r : Rules.Rule, r.matchMode = "" →
        (Rules.normalizeParsedRule r).matchMode = "all")
    ∧ (∀ r : Rules.Rule, r.action.type = "" →
        (Rules.normalizeParsedRule r).action.type = "hide")
    ∧ (∀ (reg : Rules.Registry) (ctx : Rules.Context) (rid : Int) (r : Rules.Rule),
        r.conditions = [] → r.matchMode = "" → r.action.type = "" →
        r.action.allow = none →
        Rules.evaluate (Rules.normalizeParsedRule r) reg ctx rid = .ok (true, true)) := by
  have main : ∀ (reg : Rules.Registry) (ctx : Rules.Context) (rid : Int) (r : Rules.Rule),
      r.conditions = [] → r.matchMode ≠ "any" → r.action.type = "hide" →
      r.action.allow = none →
      Rules.evaluate r reg ctx rid = .ok (true, true) := by
    intro reg ctx rid r hc hm ht ha
    have hb : (r.matchMode == "any") = false := beq_eq_false_iff_ne.mpr hm
    simp [Rules.evaluate, Rules.evalCondLoop, hc, ht, ha, bne, hb]
  refine ⟨main, ?_, ?_, ?_⟩
  · intro r h
    simp only [Rules.normalizeParsedRule, h]
    split_ifs <;> rfl
  · intro r h
    simp only [Rules.normalizeParsedRule]
    split_ifs with h₁ <;> simp_all
  · intro reg ctx rid r hc hm ht ha
    apply main
    · simp only [Rules.normalizeParsedRule]
      split_ifs
      simp [hc]
    · simp only [Rules.normalizeParsedRule, hm]
      split_ifs <;> simp
    · simp only [Rules.normalizeParsedRule, hm, ht]
      split_ifs <;> simp_all
    · simp only [Rules.normalizeParsedRule]
      split_ifs
      simp [ha]

/-- Witness for C10: the minimal parsed rule (no conditions, defaulted
match and action) hides a default context. -/
theorem claim10_witness :
    (({} : Rules.Rule).conditions = [] ∧ ({} : Rules.Rule).matchMode = ""
      ∧ ({} : Rules.Rule).action.type = "" ∧ ({} : Rules.Rule).action.allow = none)
    ∧ Rules.evaluate (Rules.normalizeParsedRule {}) Rules.defaultRegistry {} 1 =
        .ok (true, true) :=
  ⟨⟨rfl, rfl, rfl, rfl⟩,
   claim10_empty_conditions_hide.2.2.2 Rules.defaultRegistry {} 1 {} rfl rfl rfl rfl⟩

/-- **C1 (code bug).**  The spec's rule JSON shape carries the sampling
override under the `override` key, which decodes into `Action.Override`;
but `Evaluate` (rules.go line 109) reads only `Action.Allow`.  At ruleID 1
and activity 4 the FNV decision `allowOneIn 1 4 10` is `true`, so the
claim requires `hide = false`; the code returns `hide = true`,
contradicting the repository's own tests (`TestEvaluateRule` /
`TestDescribeRuleOverride` use the `override` key and
`TestEvaluateRuleLegacyAllowAlias` calls `allow` a legacy alias). -/
theorem claim1_override_key_ignored :
    claim1Rule.action.override = some { oneIn := 10 }
    ∧ claim1Rule.action.allow = none
    ∧ Rules.allowOneIn 1 4 10 = true
    ∧ Rules.evaluate claim1Rule Rules.defaultRegistry claim1Ctx 1 = .ok (true, true) :=
  ⟨rfl, rfl, by decide, by decide⟩

/-- A broken condition makes the per-condition body of `Evaluate`
error. -/
theorem condBroken_condEval_error (reg : Rules.Registry) (ctx : Rules.Context)
    (cond : Rules.Condition) (h : Rules.condBroken reg cond) :
    ∃ e, Rules.condEval reg ctx cond = .error e := by
  rcases h with h | ⟨metric, hm, hop⟩ | ⟨metric, operator, hm, hop, e, hval⟩
  · exact ⟨"unknown metric " ++ cond.metric, by simp [Rules.condEval, h]⟩
  · exact ⟨"invalid operator " ++ cond.op, by simp [Rules.condEval, hm, hop]⟩
  · exact ⟨e, by simp [Rules.condEval, hm, hop, hval]⟩

/-- The condition loop errors when it reaches a broken condition: every
condition before it must evaluate to the continue value (`true` under
`all`, `false` under `any`), which is `matchAll` in both modes. -/
theorem evalCondLoop_error_at (reg : Rules.Registry) (ctx : Rules.Context)
    (matchAll : Bool) :
    ∀ (pre : List Rules.Condition) (cond : Rules.Condition)
      (post : List Rules.Condition),
      (∀ c ∈ pre, Rules.condEval reg ctx c = .ok matchAll) →
      (∃ e, Rules.condEval reg ctx cond = .error e) →
      ∃ e, Rules.evalCondLoop reg ctx matchAll (pre ++ cond :: post) = .error e := by
  intro pre
  induction pre with
  | nil =>
    intro cond post _ hbrk
    obtain ⟨e, he⟩ := hbrk
    exact ⟨e, by simp [Rules.evalCondLoop, he]⟩
  | cons c pre ih =>
    intro cond post hok hbrk
    have hc : Rules.condEval reg ctx c = .ok matchAll :=
      hok c (List.mem_cons_self c pre)
    obtain ⟨e, he⟩ :=
      ih cond post (fun c' hc' => hok c' (List.mem_cons_of_mem c hc')) hbrk
    refine ⟨e, ?_⟩
    cases matchAll <;> simp [Rules.evalCondLoop, hc, he]

/-- **C5, counterexample.**  The claim says *any* condition naming an
unknown metric makes `Evaluate` return an error; but under `match: all`
the loop short-circuits at the first non-matching condition, so the second
condition's unknown metric `"nope"` is never looked up and `Evaluate`
returns `(false, false)` with no error. -/
theorem claim5_counterexample :
    Rules.defaultRegistry "nope" = none
    ∧ claim5Rule.conditions =
        [⟨"distance_m", "lt", [.num 10]⟩, ⟨"nope", "eq", [.num 1]⟩]
    ∧ Rules.evaluate claim5Rule Rules.defaultRegistry claim5Ctx 1 = .ok (false, false) :=
  ⟨rfl, rfl, by decide⟩

/-- **C5, amended.**  Invalid conditions (unknown metric, operator not
legal for the metric's type, values failing validation) are propagated as
errors by `Evaluate` when evaluation reaches them: if every condition
before the broken one evaluates to the continue value of the match mode
(no short-circuit), `Evaluate` returns a non-nil error. -/
theorem claim5_amended (reg : Rules.Registry) (ctx : Rules.Context)
    (rid : Int) (rule : Rules.Rule) (pre : List Rules.Condition)
    (cond : Rules.Condition) (post : List Rules.Condition)
    (hconds : rule.conditions = pre ++ cond :: post)
    (hok : ∀ c ∈ pre, Rules.condEval reg ctx c = .ok (rule.matchMode != "any"))
    (hbroken : Rules.condBroken reg cond) :
    ∃ e, Rules.evaluate rule reg ctx rid = .error e := by
  obtain ⟨e, he⟩ := evalCondLoop_error_at reg ctx (rule.matchMode != "any")
    pre cond post hok (condBroken_condEval_error reg ctx cond hbroken)
  exact ⟨e, by simp [Rules.evaluate, hconds, he]⟩

/-- Witness for the amended C5: a rule whose first condition names an
unknown metric evaluates to an error. -/
theorem claim5_amended_witness :
    claim5WitnessRule.conditions = [] ++ ⟨"nope", "eq", [.num 1]⟩ :: []
    ∧ Rules.condBroken Rules.defaultRegistry ⟨"nope", "eq", [.num 1]⟩
    ∧ ∃ e, Rules.evaluate claim5WitnessRule Rules.defaultRegistry {} 1 = .error e :=
  ⟨rfl, Or.inl rfl,
   claim5_amended Rules.defaultRegistry {} 1 claim5WitnessRule []
     ⟨"nope", "eq", [.num 1]⟩ [] rfl (by intro c hc; cases hc) (Or.inl rfl)⟩

namespace Gps

/-- Invariant-carrying characterization of the `DetectStops` loop: with no
open interval the remaining output is the runs of the remaining points;
with an open interval whose first point is `stopStart` and latest point is
`last`, the accumulated reversed run `run` ties the loop state to the
run decomposition. -/
theorem detectStopsLoop_eq (opts : StopOptions) :
    ∀ (rest : List Point) (inStop : Bool) (acc : Option (List Point))
      (s l : Point) (stops : List Stop),
      inStop = acc.isSome →
      (∀ run, acc = some run → run.reverse.head? = some s ∧ run.head? = some l) →
      detectStopsLoop opts rest inStop s l stops =
        stops ++ (stoppedRunsAux opts.speedThreshold rest acc).filterMap (emitRun opts) := by
  intro rest
  induction rest with
  | nil =>
    intro inStop acc s l stops hin hrun
    cases acc with
    | none =>
      subst hin
      simp [detectStopsLoop, stoppedRunsAux]
    | some run =>
      subst hin
      obtain ⟨hs, hl⟩ := hrun run rfl
      obtain ⟨tail, htail⟩ : ∃ tail, run.reverse = s :: tail := by
        cases hrev : run.reverse with
        | nil => rw [hrev] at hs; simp at hs
        | cons a tail =>
          rw [hrev] at hs
          simp at hs
          exact ⟨tail, by rw [hs]⟩
      have hlast : tail.getLast?.getD s = l := by
        have h1 : run.reverse.getLast? = some l := by
          rw [List.getLast?_reverse]; exact hl
        rw [htail, List.getLast?_cons] at h1
        exact Option.some.inj h1
      simp only [detectStopsLoop, stoppedRunsAux, htail, List.filterMap,
        emitRun, hlast]
      by_cases hd : l.time - s.time ≥ opts.minDuration
      · simp [hd, hlast, Option.toList]
      · simp [hd, hlast, Option.toList]
  | cons q rest ih =>
    intro inStop acc s l stops hin hrun
    cases acc with
    | none =>
      subst hin
      by_cases hq : q.speed ≤ opts.speedThreshold
      · have := ih true (some [q]) q q stops rfl (by intro run h; cases h; simp)
        simpa [detectStopsLoop, stoppedRunsAux, hq] using this
      · have := ih false none s q stops rfl (by intro run h; cases h)
        simpa [detectStopsLoop, stoppedRunsAux, hq] using this
    | some run =>
      subst hin
      obtain ⟨hs, hl⟩ := hrun run rfl
      by_cases hq : q.speed ≤ opts.speedThreshold
      · have hne : run.reverse ≠ [] := by
          intro h; rw [h] at hs; simp at hs
        have := ih true (some (q :: run)) s q stops rfl (by
          intro run' h
          cases h
          constructor
          · rw [List.reverse_cons, List.head?_append, hs]; rfl
          · rfl)
        simpa [detectStopsLoop, stoppedRunsAux, hq] using this
      · -- transition back to moving: flush the open interval
        obtain ⟨tail, htail⟩ : ∃ tail, run.reverse = s :: tail := by
          cases hrev : run.reverse with
          | nil => rw [hrev] at hs; simp at hs
          | cons a tail =>
            rw [hrev] at hs
            simp at hs
            exact ⟨tail, by rw [hs]⟩
        have hlast : tail.getLast?.getD s = l := by
          have h1 : run.reverse.getLast? = some l := by
            rw [List.getLast?_reverse]; exact hl
          rw [htail, List.getLast?_cons] at h1
          exact Option.some.inj h1
        by_cases hd : opts.minDuration ≤ l.time - s.time
        · have := ih false none s q
            (stops ++ [{ lat := s.lat, lon := s.lon, duration := l.time - s.time }])
            rfl (by intro run' h; cases h)
          simp [detectStopsLoop, stoppedRunsAux, hq, hd, this, htail, emitRun,
            hlast, List.filterMap_cons]
        · have := ih false none s q stops rfl (by intro run' h; cases h)
          simp [detectStopsLoop, stoppedRunsAux, hq, hd, this, htail, emitRun,
            hlast, List.filterMap_cons]

/-- **C2.** `DetectStops` emits, for each maximal run of consecutive
points with speed at or below `SpeedThreshold` (a run ends at a
transition back to moving or at the end of the sequence), exactly one
Stop iff the time from the run's first point to its last point reaches
`MinDuration`; that Stop's position is the run's first point (not a
centroid) and its duration is exactly that time difference.  Stated as
the equality of `detectStops` with the run-based spec description; the
boundary instances (span exactly `MinDuration` → one Stop; one `ε` less →
none) are immediate from `emitRun`'s `≥`. -/
theorem claim2_stops_per_maximal_run (points : List Point) (opts : StopOptions) :
    detectStops points opts = detectStopsSpec points opts := by
  cases points with
  | nil => rfl
  | cons p rest =>
    have := detectStopsLoop_eq opts (p :: rest) false none {} p [] rfl
      (by intro run h; cases h)
    simpa [detectStops, detectStopsSpec, stoppedRuns] using this

end Gps

namespace Storage

theorem jobBefore_irrefl (j : Job) : jobBefore j j = false := by
  simp [jobBefore]

theorem jobBefore_asymm {a b : Job} (h : jobBefore a b = true) :
    jobBefore b a = false := by
  simp [jobBefore] at h ⊢
  omega

theorem jobBefore_neg_trans {a b c : Job} (h₁ : jobBefore a b = false)
    (h₂ : jobBefore b c = false) : jobBefore a c = false := by
  simp [jobBefore] at h₁ h₂ ⊢
  omega

/-- `selectEligibleJob` returns `none` exactly on lists with no eligible
job, and otherwise an eligible member that no eligible member strictly
precedes in the `(next_run_at, id)` order. -/
theorem selectEligibleJob_spec (now sc : Int) :
    ∀ jobs : List Job,
      (match selectEligibleJob now sc jobs with
       | none => ∀ j ∈ jobs, jobEligible now sc j = false
       | some j => j ∈ jobs ∧ jobEligible now sc j = true
           ∧ ∀ k ∈ jobs, jobEligible now sc k = true → jobBefore k j = false) := by
  intro jobs
  induction jobs with
  | nil => simp [selectEligibleJob]
  | cons j rest ih =>
    by_cases hj : jobEligible now sc j = true
    · cases hr : selectEligibleJob now sc rest with
      | none =>
        rw [hr] at ih
        simp only [selectEligibleJob, hj, hr, if_pos]
        refine ⟨by simp, by simp [hj], ?_⟩
        intro k hk hke
        rcases List.mem_cons.mp hk with rfl | hk
        · exact jobBefore_irrefl k
        · exact absurd (ih k hk) (by simp [hke])
      | some m =>
        rw [hr] at ih
        obtain ⟨hm, hme, hmin⟩ := ih
        by_cases hbm : jobBefore m j = true
        · simp only [selectEligibleJob, hj, hr, if_pos, hbm, if_true]
          refine ⟨by simp [List.mem_cons_of_mem j hm], by simp [hme], ?_⟩
          intro k hk hke
          rcases List.mem_cons.mp hk with rfl | hk
          · exact jobBefore_asymm hbm
          · exact hmin k hk hke
        · simp only [selectEligibleJob, hj, hr, if_pos, hbm, if_false,
            Bool.false_eq_true]
          refine ⟨by simp, by simp [hj], ?_⟩
          intro k hk hke
          rcases List.mem_cons.mp hk with rfl | hk
          · exact jobBefore_irrefl k
          · exact jobBefore_neg_trans (hmin k hk hke)
              (Bool.eq_false_iff.mpr (fun h => hbm h))
    · cases hr : selectEligibleJob now sc rest with
      | none =>
        rw [hr] at ih
        simp only [selectEligibleJob, hj, hr]
        intro k hk
        rcases List.mem_cons.mp hk with rfl | hk
        · exact Bool.eq_false_iff.mpr hj
        · exact ih k hk
      | some m =>
        rw [hr] at ih
        obtain ⟨hm, hme, hmin⟩ := ih
        simp only [selectEligibleJob, hj, hr]
        refine ⟨by simp [List.mem_cons_of_mem j hm], by simp [hme], ?_⟩
        intro k hk hke
        rcases List.mem_cons.mp hk with rfl | hk
        · exact absurd hke hj
        · exact hmin k hk hke

end Storage

/-- **C4.**  `ClaimJob(now, staleAfter)` in one atomic step selects the
oldest eligible job — eligible means `status ∈ {queued, retry}` with
`next_run_at ≤ now`, or `status = running` and stale
(`updated_at ≤ now − staleAfter`); oldest means least in the SQL
`ORDER BY next_run_at, id` order — transitions it to `running`,
increments its attempts by exactly one (setting `updated_at := now`), and
returns it; with no eligible job it returns none and changes nothing.  A
job claimed and not yet past the staleness window is not eligible (hence
not claimable by a second call), while one left `running` past the window
is reclaimable. -/
theorem claim4_claimjob_oldest_eligible :
    (∀ (now staleAfter : Int) (jobs : List Storage.Job),
       (∀ j ∈ jobs, Storage.jobEligible now (now - staleAfter) j = false) →
       Storage.claimJob now staleAfter jobs = (none, jobs))
    ∧ (∀ (now staleAfter : Int) (jobs : List Storage.Job) (j₀ : Storage.Job),
       j₀ ∈ jobs → Storage.jobEligible now (now - staleAfter) j₀ = true →
       ∃ j ∈ jobs, Storage.jobEligible now (now - staleAfter) j = true
         ∧ (∀ k ∈ jobs, Storage.jobEligible now (now - staleAfter) k = true →
              Storage.jobBefore k j = false)
         ∧ Storage.claimJob now staleAfter jobs =
             (some (Storage.claimWrite j now j),
              jobs.map fun k =>
                if k.id = j.id then Storage.claimWrite j now k else k))
    ∧ (∀ (staleAfter now₂ : Int) (j : Storage.Job),
       j.status = "running" → now₂ - staleAfter < j.updatedAt →
       Storage.jobEligible now₂ (now₂ - staleAfter) j = false
       ∧ Storage.claimJob now₂ staleAfter [j] = (none, [j]))
    ∧ (∀ (staleAfter now₂ : Int) (j : Storage.Job),
       j.status = "running" → j.updatedAt ≤ now₂ - staleAfter →
       Storage.jobEligible now₂ (now₂ - staleAfter) j = true
       ∧ Storage.claimJob now₂ staleAfter [j] =
           (some (Storage.claimWrite j now₂ j), [Storage.claimWrite j now₂ j])) := by
  refine ⟨?_, ?_, ?_, ?_⟩
  · intro now staleAfter jobs hall
    have hs := Storage.selectEligibleJob_spec now (now - staleAfter) jobs
    cases h : Storage.selectEligibleJob now (now - staleAfter) jobs with
    | none => simp [Storage.claimJob, h]
    | some j =>
      rw [h] at hs
      exact absurd hs.2.1 (by simp [hall j hs.1])
  · intro now staleAfter jobs j₀ hmem helig
    have hs := Storage.selectEligibleJob_spec now (now - staleAfter) jobs
    cases h : Storage.selectEligibleJob now (now - staleAfter) jobs with
    | none =>
      rw [h] at hs
      exact absurd helig (by simp [hs j₀ hmem])
    | some j =>
      rw [h] at hs
      exact ⟨j, hs.1, hs.2.1, hs.2.2, by simp [Storage.claimJob, h]⟩
  · intro staleAfter now₂ j hst hupd
    have he : Storage.jobEligible now₂ (now₂ - staleAfter) j = false := by
      simp [Storage.jobEligible, hst]
      omega
    refine ⟨he, ?_⟩
    simp [Storage.claimJob, Storage.selectEligibleJob, he]
  · intro staleAfter now₂ j hst hupd
    have he : Storage.jobEligible now₂ (now₂ - staleAfter) j = true := by
      simp [Storage.jobEligible, hst]
      omega
    refine ⟨he, ?_⟩
    simp [Storage.claimJob, Storage.selectEligibleJob, he]

/-- Witness for C4: an empty table yields no claim; a single due queued
job is claimed; the claimed job (updated at 10) is not reclaimable at
`now₂ = 12` with a 5-second window but is reclaimable at `now₂ = 20`. -/
theorem claim4_witness :
    Storage.claimJob 10 3 [] = (none, [])
    ∧ (∃ j ∈ [claim4QueuedJob],
        Storage.jobEligible 10 (10 - 3) j = true
        ∧ (∀ k ∈ [claim4QueuedJob],
             Storage.jobEligible 10 (10 - 3) k = true → Storage.jobBefore k j = false)
        ∧ Storage.claimJob 10 3 [claim4QueuedJob] =
            (some (Storage.claimWrite j 10 j),
             [claim4QueuedJob].map fun k =>
               if k.id = j.id then Storage.claimWrite j 10 k else k))
    ∧ (Storage.jobEligible 12 (12 - 5) claim4RunningJob = false
       ∧ Storage.claimJob 12 5 [claim4RunningJob] = (none, [claim4RunningJob]))
    ∧ (Storage.jobEligible 20 (20 - 5) claim4RunningJob = true
       ∧ Storage.claimJob 20 5 [claim4RunningJob] =
           (some (Storage.claimWrite claim4RunningJob 20 claim4RunningJob),
            [Storage.claimWrite claim4RunningJob 20 claim4RunningJob])) :=
  ⟨claim4_claimjob_oldest_eligible.1 10 3 [] (by simp),
   claim4_claimjob_oldest_eligible.2.1 10 3 [claim4QueuedJob] claim4QueuedJob
     (by simp) (by decide),
   claim4_claimjob_oldest_eligible.2.2.1 5 12 claim4RunningJob rfl (by decide),
   claim4_claimjob_oldest_eligible.2.2.2 5 20 claim4RunningJob rfl (by decide)⟩

namespace Processor

/-- The rule loop returns `true` exactly when some enabled stored row
parses, validates and evaluates without error to `(matched, hide) =
(true, true)`. -/
theorem rulesLoop_true_iff (reg : Rules.Registry) (ctx : Rules.Context) :
    ∀ rows : List Storage.RuleRow,
      rulesLoop reg ctx rows = true ↔
      ∃ row ∈ rows, row.enabled = true
        ∧ ∃ rule, parseRuleRow row = some rule
          ∧ Rules.validateRule rule reg = .ok ()
          ∧ Rules.evaluate rule reg ctx row.id = .ok (true, true) := by
  intro rows
  induction rows with
  | nil => simp [rulesLoop]
  | cons row rest ih =>
    by_cases hen : row.enabled = true
    · cases hp : parseRuleRow row with
      | none => simp [rulesLoop, hen, hp, ih]
      | some ruleDef =>
        cases hv : Rules.validateRule ruleDef reg with
        | error e => simp [rulesLoop, hen, hp, hv, ih]
        | ok u =>
          cases u
          cases he : Rules.evaluate ruleDef reg ctx row.id with
          | error e => simp [rulesLoop, hen, hp, hv, he, ih]
          | ok mh =>
            obtain ⟨m, h⟩ := mh
            cases m <;> cases h <;> simp [rulesLoop, hen, hp, hv, he, ih]
    · have hen' : row.enabled = false := by
        revert hen; cases row.enabled <;> simp
      simp [rulesLoop, hen', ih]

end Processor

/-- **C9.** On every successful run, `RulesProcessor.Process`
unconditionally overwrites the activity's `hidden_by_rule` flag with the
rule loop's decision — the previous flag value does not appear in the
result — and the decision is `true` iff at least one enabled stored rule
parses, validates against the registry, and evaluates without error to
matched-and-hide (the loop stops at the first such rule, which does not
change the existence criterion); rules failing to parse, validate or
evaluate are skipped and never abort processing (the run still returns
`.ok` whatever the rule rows contain). -/
theorem claim9_process_overwrites_hidden_flag
    (regOpt : Option Rules.Registry) (s : Storage.StoreState) (aid : Int)
    (activity : Storage.ActivityRow)
    (hact : s.activities aid = some activity) (hid : aid ≠ 0) :
    (Processor.rulesProcess true regOpt s aid = .ok
      (Processor.writeHiddenFlag s aid activity
        (Processor.rulesComputedHide regOpt s aid activity)))
    ∧ (∀ (reg : Rules.Registry) (ctx : Rules.Context)
         (rows : List Storage.RuleRow),
        Processor.rulesLoop reg ctx rows = true ↔
        ∃ row ∈ rows, row.enabled = true
          ∧ ∃ rule, Processor.parseRuleRow row = some rule
            ∧ Rules.validateRule rule reg = .ok ()
            ∧ Rules.evaluate rule reg ctx row.id = .ok (true, true)) := by
  constructor
  · have hfun : ∀ b : Bool, (fun k => if k = aid then
        (s.activities k).map (fun r => { r with hiddenByRule := b })
        else s.activities k) =
      (fun k => if k = aid then
        some { activity with hiddenByRule := b } else s.activities k) := by
      intro b
      funext k
      by_cases hk : k = aid
      · simp [hk, hact]
      · simp [hk]
    simp [Processor.rulesProcess, hact, Storage.updateActivityHiddenByRule,
      hid, Processor.writeHiddenFlag, Processor.rulesComputedHide, hfun]
  · exact fun reg ctx rows => Processor.rulesLoop_true_iff reg ctx rows

/-- Witness for C9: an activity row previously hidden by a rule, whose
user now has no stored rules, is unhidden (flag overwritten to `false`)
by a successful run. -/
theorem claim9_witness :
    claim9State.activities 1 = some claim9Row
    ∧ (1 : Int) ≠ 0
    ∧ Processor.rulesProcess true none claim9State 1 = .ok
        (Processor.writeHiddenFlag claim9State 1 claim9Row false) :=
  ⟨rfl, by decide, by
    have h := (claim9_process_overwrites_hidden_flag none claim9State 1
      claim9Row rfl (by decide)).1
    have hz : Processor.rulesComputedHide none claim9State 1 claim9Row = false := rfl
    rw [hz] at h
    exact h⟩

namespace Storage

theorem StoreState.ext {s₁ s₂ : StoreState}
    (h₁ : s₁.activities = s₂.activities) (h₂ : s₁.points = s₂.points)
    (h₃ : s₁.statsTable = s₂.statsTable) (h₄ : s₁.stops = s₂.stops)
    (h₅ : s₁.hideRules = s₂.hideRules) (h₆ : s₁.nextId = s₂.nextId) :
    s₁ = s₂ := by
  cases s₁
  cases s₂
  simp_all

/-- `upsertActivityWithPoints` touches only `activities`, `points` and
`nextId`. -/
theorem upsertAWP_preserves (s : StoreState) (now : Int) (a : ActivityUpsert)
    (pts : List Gps.Point) :
    ((upsertActivityWithPoints s now a pts).2).statsTable = s.statsTable
    ∧ ((upsertActivityWithPoints s now a pts).2).stops = s.stops
    ∧ ((upsertActivityWithPoints s now a pts).2).hideRules = s.hideRules := by
  unfold upsertActivityWithPoints
  split_ifs <;> simp

/-- Explicit form of the upsert write when the activity id is nonzero. -/
theorem upsertAWP_eq (s : StoreState) (now : Int) (a : ActivityUpsert)
    (pts : List Gps.Point) (hid : a.id ≠ 0) :
    upsertActivityWithPoints s now a pts =
      (a.id,
       { s with
         activities := fun k =>
           if k = a.id then some (upsertRow a now (s.activities a.id))
           else s.activities k,
         points := fun k =>
           if k = a.id then
             pts.map (fun p => { lat := p.lat, lon := p.lon,
                                 ts := Int.fdiv p.time 1000000000, speed := p.speed })
           else s.points k }) := by
  unfold upsertActivityWithPoints
  simp [hid]

/-- Re-running the upsert write with the same arguments is a no-op: the
`ON CONFLICT` update preserves `hidden_by_rule`, which the first write
already fixed, and the points are replaced by the same list. -/
theorem upsertAWP_idem (s : StoreState) (now : Int) (a : ActivityUpsert)
    (pts : List Gps.Point) (hid : a.id ≠ 0) :
    (upsertActivityWithPoints (upsertActivityWithPoints s now a pts).2 now a pts).2
      = (upsertActivityWithPoints s now a pts).2 := by
  rw [upsertAWP_eq s now a pts hid]
  rw [upsertAWP_eq _ now a pts hid]
  apply StoreState.ext <;> try rfl
  · funext k
    by_cases hk : k = a.id
    · simp only [hk, if_pos]
      rfl
    · simp [hk]
  · funext k
    by_cases hk : k = a.id <;> simp [hk]

/-- The stats upsert is idempotent. -/
theorem upsertStats_idem (s : StoreState) (now aid : Int) (st : StatsRow) :
    upsertActivityStats (upsertActivityStats s now aid st) now aid st
      = upsertActivityStats s now aid st := by
  apply StoreState.ext <;> try rfl
  funext k
  by_cases hk : k = aid <;> simp [upsertActivityStats, hk]

/-- The upsert write commutes with overriding the stats table. -/
theorem upsertAWP_statsframe (s : StoreState) (now : Int) (a : ActivityUpsert)
    (pts : List Gps.Point) (T : Int → Option StatsRow) :
    (upsertActivityWithPoints { s with statsTable := T } now a pts).2
      = { (upsertActivityWithPoints s now a pts).2 with statsTable := T } := by
  unfold upsertActivityWithPoints
  split_ifs <;> simp

end Storage

namespace Ingest

/-- Elimination form of a successful `fetchAndUpsert`: the fetched data,
the validation facts, and the resulting state. -/
theorem fetchAndUpsert_ok {env : IngestEnv} {now : Int}
    {s s' : Storage.StoreState} {aid : Int}
    (h : fetchAndUpsert env now s aid = .ok s') :
    ∃ a streams pts,
      env.hasStrava = true
      ∧ env.getActivity aid = .ok a
      ∧ env.getStreams aid = .ok streams
      ∧ buildPoints a.startDate streams = .ok pts
      ∧ ¬(a.startDate = 0) ∧ ¬(a.type = "") ∧ ¬(a.name = "")
      ∧ s' = (Storage.upsertActivityWithPoints s now (upsertArg a) pts).2 := by
  unfold fetchAndUpsert at h
  by_cases hstrava : env.hasStrava = true
  · rw [hstrava] at h
    simp only [Bool.not_true, Bool.false_eq_true, if_false] at h
    cases hga : env.getActivity aid with
    | error e => simp [hga] at h
    | ok a =>
      simp only [hga] at h
      cases hgs : env.getStreams aid with
      | error e => simp [hgs] at h
      | ok streams =>
        simp only [hgs] at h
        cases hbp : buildPoints a.startDate streams with
        | error e => simp [hbp] at h
        | ok pts =>
          simp only [hbp] at h
          unfold Storage.upsertActivity at h
          simp only [upsertArg] at h
          split_ifs at h with h₁ h₂ h₃
          cases h
          exact ⟨a, streams, pts, hstrava, rfl, rfl, hbp, h₁, h₂, h₃,
            by simp [upsertArg]⟩
  · have : env.hasStrava = false := by
      revert hstrava; cases env.hasStrava <;> simp
    rw [this] at h
    cases h

/-- `fetchAndUpsert` leaves stats, stops and rules untouched. -/
theorem fetchAndUpsert_preserves {env : IngestEnv} {now : Int}
    {s s' : Storage.StoreState} {aid : Int}
    (h : fetchAndUpsert env now s aid = .ok s') :
    s'.statsTable = s.statsTable ∧ s'.stops = s.stops
    ∧ s'.hideRules = s.hideRules := by
  obtain ⟨a, streams, pts, _, _, _, _, _, _, _, rfl⟩ := fetchAndUpsert_ok h
  exact Storage.upsertAWP_preserves s now (upsertArg a) pts

/-- Forward form of `fetchAndUpsert` on any state, from the fetched data
and the validation facts. -/
theorem fetchAndUpsert_build {env : IngestEnv} {now aid : Int}
    (a : StravaActivity) (streams : StreamSet) (pts : List Gps.Point)
    (s₀ : Storage.StoreState)
    (hstrava : env.hasStrava = true)
    (hga : env.getActivity aid = .ok a)
    (hgs : env.getStreams aid = .ok streams)
    (hbp : buildPoints a.startDate streams = .ok pts)
    (h₁ : ¬(a.startDate = 0)) (h₂ : ¬(a.type = "")) (h₃ : ¬(a.name = "")) :
    fetchAndUpsert env now s₀ aid =
      .ok (Storage.upsertActivityWithPoints s₀ now (upsertArg a) pts).2 := by
  unfold fetchAndUpsert
  simp only [hstrava, Bool.not_true, Bool.false_eq_true, if_false, hga, hgs, hbp]
  unfold Storage.upsertActivity
  have c₁ : ¬((upsertArg a).startTime = 0) := by simpa [upsertArg] using h₁
  have c₂ : ¬((upsertArg a).type = "") := by simpa [upsertArg] using h₂
  have c₃ : ¬((upsertArg a).name = "") := by simpa [upsertArg] using h₃
  rw [if_neg c₁, if_neg c₂, if_neg c₃]

/-- With a nonzero upstream activity id, a successful fetch is idempotent
on the store. -/
theorem fetchAndUpsert_idem {env : IngestEnv} {now : Int}
    {s s' : Storage.StoreState} {aid : Int}
    (hup : ∀ a, env.getActivity aid = .ok a → a.id ≠ 0)
    (h : fetchAndUpsert env now s aid = .ok s') :
    fetchAndUpsert env now s' aid = .ok s' := by
  obtain ⟨a, streams, pts, hstrava, hga, hgs, hbp, h₁, h₂, h₃, rfl⟩ :=
    fetchAndUpsert_ok h
  have hid : (upsertArg a).id ≠ 0 := by
    simpa [upsertArg] using hup a hga
  rw [fetchAndUpsert_build a streams pts _ hstrava hga hgs hbp h₁ h₂ h₃,
    Storage.upsertAWP_idem s now (upsertArg a) pts hid]

/-- With a nonzero upstream activity id, a successful `EnsureActivity` is
idempotent on the store. -/
theorem ensureActivity_idem {env : IngestEnv} {now : Int}
    {s s' : Storage.StoreState} {aid : Int}
    (hup : ∀ a, env.getActivity aid = .ok a → a.id ≠ 0)
    (h : ensureActivity env now s aid = .ok s') :
    ensureActivity env now s' aid = .ok s' := by
  unfold ensureActivity at h
  by_cases h₁ : Storage.hasActivity s aid = true
  · rw [h₁] at h
    simp only [Bool.not_true, Bool.false_eq_true, if_false] at h
    by_cases h₂ : Storage.countActivityPoints s aid = 0
    · rw [if_pos h₂] at h
      have hf := fetchAndUpsert_idem hup h
      unfold ensureActivity
      split_ifs <;> first | exact hf | rfl
    · rw [if_neg h₂] at h
      cases h
      unfold ensureActivity
      rw [h₁]
      simp only [Bool.not_true, Bool.false_eq_true, if_false]
      rw [if_neg h₂]
  · have h₁' : Storage.hasActivity s aid = false := by
      revert h₁; cases Storage.hasActivity s aid <;> simp
    rw [h₁'] at h
    simp only [Bool.not_false, if_true] at h
    have hf := fetchAndUpsert_idem hup h
    unfold ensureActivity
    split_ifs <;> first | exact hf | rfl

end Ingest

namespace Ingest

/-- `fetchAndUpsert` commutes with overriding the stats table (it never
reads or writes it). -/
theorem fetchAndUpsert_statsframe (env : IngestEnv) (now aid : Int)
    (s : Storage.StoreState) (T : Int → Option Storage.StatsRow) :
    fetchAndUpsert env now { s with statsTable := T } aid =
      (fetchAndUpsert env now s aid).map (fun t => { t with statsTable := T }) := by
  unfold fetchAndUpsert
  cases henv : env.hasStrava with
  | false => simp [Except.map]
  | true =>
    simp only [Bool.not_true, Bool.false_eq_true, if_false]
    cases hga : env.getActivity aid with
    | error e => simp [hga, Except.map]
    | ok a =>
      simp only [hga]
      cases hgs : env.getStreams aid with
      | error e => simp [hgs, Except.map]
      | ok streams =>
        simp only [hgs]
        cases hbp : buildPoints a.startDate streams with
        | error e => simp [hbp, Except.map]
        | ok pts =>
          simp only [hbp]
          unfold Storage.upsertActivity
          split_ifs <;> simp [Except.map, Storage.upsertAWP_statsframe]

/-- `EnsureActivity` commutes with overriding the stats table. -/
theorem ensureActivity_statsframe (env : IngestEnv) (now aid : Int)
    (s : Storage.StoreState) (T : Int → Option Storage.StatsRow) :
    ensureActivity env now { s with statsTable := T } aid =
      (ensureActivity env now s aid).map (fun t => { t with statsTable := T }) := by
  unfold ensureActivity
  have h1 : Storage.hasActivity { s with statsTable := T } aid =
      Storage.hasActivity s aid := rfl
  have h2 : Storage.countActivityPoints { s with statsTable := T } aid =
      Storage.countActivityPoints s aid := rfl
  rw [h1, h2]
  cases hh : Storage.hasActivity s aid with
  | false => simp [fetchAndUpsert_statsframe]
  | true =>
    by_cases hc : Storage.countActivityPoints s aid = 0 <;>
      simp [hc, fetchAndUpsert_statsframe, Except.map]

end Ingest

namespace Processor

/-- A successful stop-stats run is idempotent: the second run loads the
same points (the stats upsert does not touch them), recomputes the same
value, and overwrites the stats row with it. -/
theorem stopStatsProcess_idem (mapApi : MapApi) (opts : Gps.StopOptions)
    (now : Int) (s : Storage.StoreState) (aid : Int) (s₁ : Storage.StoreState)
    (h : stopStatsProcess mapApi opts now s aid = .ok s₁) :
    stopStatsProcess mapApi opts now s₁ aid = .ok s₁ := by
  unfold stopStatsProcess at h ⊢
  cases hv : stopStatsValue mapApi opts (Storage.loadActivityPoints s aid) with
  | error e => simp [hv] at h
  | ok st =>
    simp only [hv] at h
    cases h
    have hload : Storage.loadActivityPoints
        (Storage.upsertActivityStats s now aid st) aid =
        Storage.loadActivityPoints s aid := rfl
    rw [hload, hv]
    simp [Storage.upsertStats_idem]

end Processor

/-- **C3, amended.**  Processing the same activity id twice is idempotent
on the stored Stats and Stops, provided every successful upstream
`GetActivity` response for that id carries a nonzero activity id: if both
pipeline runs succeed with the same external inputs (upstream responses,
map provider, clock), the second run leaves the stats table and the stops
table exactly as the first run left them.  (Without the nonzero-id
proviso the claim fails: see `claim3_counterexample`.) -/
theorem claim3_amended_idempotence (hasIngest hasStats : Bool) (env : Ingest.IngestEnv)
    (mapApi : Processor.MapApi) (opts : Gps.StopOptions) (now aid : Int)
    (s s₁ s₂ : Storage.StoreState)
    (hup : ∀ a, env.getActivity aid = .ok a → a.id ≠ 0)
    (h₁ : Processor.pipelineProcess hasIngest env hasStats mapApi opts now s aid = .ok s₁)
    (h₂ : Processor.pipelineProcess hasIngest env hasStats mapApi opts now s₁ aid = .ok s₂) :
    s₂.statsTable = s₁.statsTable ∧ s₂.stops = s₁.stops := by
  suffices hss : s₂ = s₁ by rw [hss]; exact ⟨rfl, rfl⟩
  cases hasIngest with
  | false =>
    simp only [Processor.pipelineProcess, Bool.false_eq_true, if_false] at h₁ h₂
    cases hasStats with
    | false =>
      simp only [Bool.false_eq_true, if_false, Except.ok.injEq] at h₁ h₂
      exact h₂.symm
    | true =>
      simp only [if_true] at h₁ h₂
      have hi := Processor.stopStatsProcess_idem mapApi opts now s aid s₁ h₁
      rw [hi] at h₂
      exact (Except.ok.inj h₂).symm
  | true =>
    simp only [Processor.pipelineProcess, if_true] at h₁ h₂
    cases hens : Ingest.ensureActivity env now s aid with
    | error e => simp [hens] at h₁
    | ok sa =>
      simp only [hens] at h₁
      have hea : Ingest.ensureActivity env now sa aid = .ok sa :=
        Ingest.ensureActivity_idem hup hens
      cases hasStats with
      | false =>
        simp only [Bool.false_eq_true, if_false, Except.ok.injEq] at h₁
        subst h₁
        simp only [hea, Bool.false_eq_true, if_false, Except.ok.injEq] at h₂
        exact h₂.symm
      | true =>
        simp only [if_true] at h₁ h₂
        unfold Processor.stopStatsProcess at h₁
        cases hv : Processor.stopStatsValue mapApi opts
            (Storage.loadActivityPoints sa aid) with
        | error e => simp [hv] at h₁
        | ok st =>
          simp only [hv] at h₁
          cases h₁
          have hform : Storage.upsertActivityStats sa now aid st =
              { sa with statsTable :=
                  (Storage.upsertActivityStats sa now aid st).statsTable } := rfl
          have hens1 : Ingest.ensureActivity env now
              (Storage.upsertActivityStats sa now aid st) aid =
              .ok (Storage.upsertActivityStats sa now aid st) := by
            rw [hform, Ingest.ensureActivity_statsframe, hea]
            rfl
          simp only [hens1] at h₂
          have hsp : Processor.stopStatsProcess mapApi opts now sa aid =
              .ok (Storage.upsertActivityStats sa now aid st) := by
            unfold Processor.stopStatsProcess
            rw [hv]
          have hidem := Processor.stopStatsProcess_idem mapApi opts now sa aid
            (Storage.upsertActivityStats sa now aid st) hsp
          rw [hidem] at h₂
          exact (Except.ok.inj h₂).symm

def c3Act : Ingest.StravaActivity :=
  { id := 0, name := "x", type := "Ride", startDate := 1000000000 }

def c3Streams : Ingest.StreamSet :=
  { latlng := [(0, 0), (0, 0)], timeOffsetsSec := [0, 60] }

def c3Env : Ingest.IngestEnv :=
  { hasStrava := true,
    getActivity := fun _ => .ok c3Act,
    getStreams := fun _ => .ok c3Streams }

def c3Opts : Gps.StopOptions := { speedThreshold := 1, minDuration := 60000000000 }

def c3Row : Storage.ActivityRow :=
  { userId := 1, type := "Ride", name := "a", startTime := 1 }

def c3State : Storage.StoreState :=
  { activities := fun k => if k = 5 then some c3Row else none,
    points := fun _ => [], statsTable := fun _ => none, stops := fun _ => [],
    hideRules := [], nextId := 6 }

def c3Run1 : Except String Storage.StoreState :=
  Processor.pipelineProcess true c3Env true none c3Opts 77 c3State 7

def c3S1 : Storage.StoreState :=
  match c3Run1 with
  | .ok t => t
  | .error _ => c3State

def c3Run2 : Except String Storage.StoreState :=
  Processor.pipelineProcess true c3Env true none c3Opts 77 c3S1 7

def c3S2 : Storage.StoreState :=
  match c3Run2 with
  | .ok t => t
  | .error _ => c3State

example : Processor.pipelineProcess true c3Env true none c3Opts 77 c3State 7 = .ok c3S1 := by rfl

example : Processor.pipelineProcess true c3Env true none c3Opts 77 c3S1 7 = .ok c3S2 := by rfl

example : c3S1.statsTable 7 = some { stopCount := 0, stopTotalSeconds := 0, trafficLightStopCount := 0, updatedAt := 77 } := by decide

example : c3S2.statsTable 7 = some { stopCount := 1, stopTotalSeconds := 60, trafficLightStopCount := 0, updatedAt := 77 } := by decide

example : c3S1.statsTable 7 ≠ c3S2.statsTable 7 := by decide

/-- **C3, counterexample.**  With a zero-id upstream payload, each run
auto-inserts a fresh `activities` rowid; starting from rowid cursor 6 and
requesting activity 7, the second run's fresh rowid collides with the
requested id, so the points land under id 7 only on the second run and
the stored stats for activity 7 differ between the two successful runs —
refuting idempotence of stored Stats as claimed. -/
theorem claim3_counterexample :
    Processor.pipelineProcess true claim3Env true none claim3Opts 77 claim3State 7 = .ok claim3S1
    ∧ Processor.pipelineProcess true claim3Env true none claim3Opts 77 claim3S1 7 = .ok claim3S2
    ∧ claim3S1.statsTable 7 ≠ claim3S2.statsTable 7 :=
  ⟨rfl, rfl, by decide⟩

/-- Witness for the amended C3: an activity already stored with points;
both runs succeed and the stored stats and stops agree after the second
run. -/
theorem claim3_witness :
    (∀ a, claim3wEnv.getActivity 1 = .ok a → a.id ≠ 0)
    ∧ Processor.pipelineProcess true claim3wEnv true none claim3Opts 77 claim3wState 1 = .ok claim3wS1
    ∧ Processor.pipelineProcess true claim3wEnv true none claim3Opts 77 claim3wS1 1 = .ok claim3wS2
    ∧ (claim3wS2.statsTable = claim3wS1.statsTable ∧ claim3wS2.stops = claim3wS1.stops) :=
  ⟨fun _ h => Except.noConfusion h, rfl, rfl,
   claim3_amended_idempotence true true claim3wEnv none claim3Opts 77 1
     claim3wState claim3wS1 claim3wS2 (fun _ h => Except.noConfusion h) rfl rfl⟩

end Weirdstats
